import Mathlib

/-! The peer session protocol engine of sylvestrupp.

A shallow embedding of `source/core/messages.h` and `source/core/peer.cpp`.

* The six message classes become the sum type `Message`; the tag stored by the
  base-class constructor, `messageType(GET_TYPE.at(type))`, is `Message.messageType`.
* A `Peer` carries the members of the C++ class.  The shared `Node` and the
  `Connection` are threaded through as explicit state, and every call the session
  makes on either of them is appended to `Peer.trace`, in program order.
* What the two files use but do not define (`LATEST_VERSION`, `NODE_NAME`,
  `hashing::SHA256AndEncode`, `parseFromJson`, `nlohmann::json::dump`) is collected
  in `Env` and every definition is parametric in it.
* Logging to `std::cout` is not modelled.
-/

namespace Sylvestrupp

/-! ## messages.h -/

def MESSAGE_TYPE_HELLO : String := "hello"
def MESSAGE_TYPE_GET_PEERS : String := "getpeers"
def MESSAGE_TYPE_PEERS : String := "peers"
def MESSAGE_TYPE_GET_OBJECT : String := "getobject"
def MESSAGE_TYPE_I_HAVE_OBJECT : String := "ihaveobject"
def MESSAGE_TYPE_OBJECT : String := "object"

def STR_TYPE : String := "type"
def STR_VERSION : String := "version"
def STR_AGENT : String := "agent"
def STR_PEERS : String := "peers"
def STR_OBJECT_ID : String := "objectid"
def STR_OBJECT : String := "object"

/-- The enumeration `MessageType` (messages.h:24-31). -/
inductive MessageType where
  | HELLO
  | GET_PEERS
  | PEERS
  | GET_OBJECT
  | OBJECT
  | I_HAVE_OBJECT
  deriving DecidableEq, Repr

/-- The table `GET_TYPE` (messages.h:33-40), entries in source order. -/
def GET_TYPE : List (String × MessageType) :=
  [ (MESSAGE_TYPE_HELLO, MessageType.HELLO),
    (MESSAGE_TYPE_GET_PEERS, MessageType.GET_PEERS),
    (MESSAGE_TYPE_PEERS, MessageType.PEERS),
    (MESSAGE_TYPE_OBJECT, MessageType.OBJECT),
    (MESSAGE_TYPE_GET_OBJECT, MessageType.GET_OBJECT),
    (MESSAGE_TYPE_I_HAVE_OBJECT, MessageType.I_HAVE_OBJECT) ]

/-- The lookup `GET_TYPE.at(type)`; `none` is the `std::out_of_range` of `std::map::at`. -/
def GET_TYPE_at (type : String) : Option MessageType :=
  GET_TYPE.lookup type

/-- Fields of `class HelloMessage`. -/
structure HelloMessage where
  version : String
  agent : String
  deriving DecidableEq, Repr

/-- Fields of `class PeersMessage`. -/
structure PeersMessage where
  peerIps : List String
  deriving DecidableEq, Repr

/-- Fields of `class GetObjectMessage`. -/
structure GetObjectMessage where
  objectId : String
  deriving DecidableEq, Repr

/-- Fields of `class IHaveObjectMessage`. -/
structure IHaveObjectMessage where
  objectId : String
  deriving DecidableEq, Repr

/-- Fields of `class ObjectMessage`. -/
structure ObjectMessage where
  object : String
  deriving DecidableEq, Repr

/-- A message object as built by one of the six derived-class constructors; the
constructor used is the dynamic type that `dynamic_cast` tests.  `GetPeersMessage`
has no members of its own. -/
inductive Message where
  | hello (m : HelloMessage)
  | getPeers
  | peers (m : PeersMessage)
  | getObject (m : GetObjectMessage)
  | iHaveObject (m : IHaveObjectMessage)
  | object (m : ObjectMessage)
  deriving DecidableEq, Repr

/-- The member `Message::type`: the string each derived constructor hands to
`Message(const std::string& type)`. -/
def Message.type : Message → String
  | .hello _ => MESSAGE_TYPE_HELLO
  | .getPeers => MESSAGE_TYPE_GET_PEERS
  | .peers _ => MESSAGE_TYPE_PEERS
  | .getObject _ => MESSAGE_TYPE_GET_OBJECT
  | .iHaveObject _ => MESSAGE_TYPE_I_HAVE_OBJECT
  | .object _ => MESSAGE_TYPE_OBJECT

/-- The member `Message::messageType`, initialised as `GET_TYPE.at(type)` (messages.h:48). -/
def Message.messageType (m : Message) : Option MessageType :=
  GET_TYPE_at m.type

/-- A value stored under a key by the `asJson` methods: a string, or the array that a
`std::vector<std::string>` converts to. -/
inductive JsonValue where
  | str (s : String)
  | strs (xs : List String)
  deriving DecidableEq, Repr

/-- The `nlohmann::json` object assembled by an `asJson` method, as its key/value pairs
in the order the initialiser list names them. -/
abbrev Json := List (String × JsonValue)

/-- The object each `asJson` builds before `dump()`; `GetPeersMessage` inherits
`Message::asJson` (messages.h:52-58). -/
def Message.toJson : Message → Json
  | .hello m =>
      [(STR_TYPE, .str (Message.hello m).type), (STR_VERSION, .str m.version),
        (STR_AGENT, .str m.agent)]
  | .getPeers => [(STR_TYPE, .str Message.getPeers.type)]
  | .peers m => [(STR_TYPE, .str (Message.peers m).type), (STR_PEERS, .strs m.peerIps)]
  | .getObject m =>
      [(STR_TYPE, .str (Message.getObject m).type), (STR_OBJECT_ID, .str m.objectId)]
  | .iHaveObject m =>
      [(STR_TYPE, .str (Message.iHaveObject m).type), (STR_OBJECT_ID, .str m.objectId)]
  | .object m => [(STR_TYPE, .str (Message.object m).type), (STR_OBJECT, .str m.object)]

/-- What peer.cpp and messages.h use without defining: the constants of
`core/constants.h`, the hash of `crypto/hash.h`, the decoder declared at messages.h:159
(`none` is the null `unique_ptr`), and the serialiser `nlohmann::json::dump`. -/
structure Env where
  LATEST_VERSION : String
  NODE_NAME : String
  SHA256AndEncode : String → String
  parseFromJson : String → Option Message
  dump : Json → String

/-- The method `asJson` of every message class: `msg.dump()` of the assembled object. -/
def Message.asJson (env : Env) (m : Message) : String :=
  env.dump m.toJson

/-- The default constructor `HelloMessage()`, delegating to
`HelloMessage(LATEST_VERSION, NODE_NAME)` (messages.h:66). -/
def HelloMessage.default (env : Env) : HelloMessage :=
  { version := env.LATEST_VERSION, agent := env.NODE_NAME }

/-! ## The collaborators of a session -/

/-- Modelled from the spec: the `Node` class is not among the sources.  Its state is the
known-peer address list and the content store, a list of `(id, payload)` entries. -/
structure Node where
  peers : List String
  objects : List (String × String)
  deriving DecidableEq, Repr

/-- Modelled from the spec: `Node::getPeerIpsCopy`, "listPeerAddresses() -> sequence of
string (snapshot copy)". -/
def Node.getPeerIpsCopy (n : Node) : List String :=
  n.peers

/-- Modelled from the spec: `Node::addNewPeers`, "mergePeerAddresses (idempotent union
insert)": adds previously-unknown addresses and does not replace existing entries. -/
def Node.addNewPeers (n : Node) (ips : List String) : Node :=
  { n with peers := ips.foldl (fun acc ip => if ip ∈ acc then acc else acc ++ [ip]) n.peers }

/-- Modelled from the spec: `Node::getObject`, "getObject(id) -> payload | not-found". -/
def Node.getObject (n : Node) (id : String) : Option String :=
  n.objects.lookup id

/-- Modelled from the spec: `Node::objectExists`, "objectExists(id) -> bool". -/
def Node.objectExists (n : Node) (id : String) : Bool :=
  (n.objects.lookup id).isSome

/-- Modelled from the spec: `Node::addObject`, "insertObjectIfAbsent(id, payload) -> bool
(true iff newly inserted)"; a duplicate id is rejected and the store is left as it was. -/
def Node.addObject (n : Node) (id payload : String) : Bool × Node :=
  if n.objectExists id then (false, n)
  else (true, { n with objects := n.objects ++ [(id, payload)] })

/-- Modelled from the spec: `Node::broadcastMessage`, "broadcast(messageText) (delivers to
every currently connected Peer Session's outgoing side)"; the registry and the store are
not involved.  What the other sessions then send is not part of this session's trace. -/
def Node.broadcastMessage (n : Node) (_text : String) : Node :=
  n

/-- Modelled from the spec: the `Connection` class is not among the sources.  Only its
liveness is state; "terminate() (idempotent; causes isActive() to become false)". -/
structure Connection where
  active : Bool
  deriving DecidableEq, Repr

/-- Modelled from the spec: `Connection::isActive`, "isActive() -> bool". -/
def Connection.isActive (c : Connection) : Bool :=
  c.active

/-- Modelled from the spec: `Connection::terminate`, after which `isActive()` is false. -/
def Connection.terminate (_c : Connection) : Connection :=
  { active := false }

/-- One call made by the session on its connection or on the node. -/
inductive Event where
  | send (text : String)
  | terminate
  | getPeerIpsCopy
  | addNewPeers (ips : List String)
  | objectExists (id : String)
  | getObject (id : String)
  | addObject (id payload : String) (inserted : Bool)
  | broadcastMessage (text : String)
  deriving DecidableEq, Repr

/-- Whether an event is a call on the node. -/
def Event.isNodeCall : Event → Bool
  | .send _ => false
  | .terminate => false
  | _ => true

/-- The node calls of a trace, in order. -/
def nodeCalls (t : List Event) : List Event :=
  t.filter Event.isNodeCall

/-- The texts passed to `m_connection.send`, in order. -/
def sends (t : List Event) : List String :=
  t.filterMap fun e => match e with
    | .send s => some s
    | _ => none

/-- The texts handed to `Node::broadcastMessage`, in order. -/
def broadcasts (t : List Event) : List String :=
  t.filterMap fun e => match e with
    | .broadcastMessage s => some s
    | _ => none

/-! ## peer.cpp -/

/-- The members of `class Peer` used by peer.cpp, with the node held by value and the
trace of calls made so far. -/
structure Peer where
  m_running : Bool
  m_handshake : Bool
  m_starter : Bool
  m_messages : List String
  m_connection : Connection
  m_node : Node
  trace : List Event
  deriving DecidableEq, Repr

/-- The call `m_connection.send(text)`. -/
def Peer.send (p : Peer) (text : String) : Peer :=
  { p with trace := p.trace ++ [Event.send text] }

/-- The call `m_connection.terminate()`. -/
def Peer.terminate (p : Peer) : Peer :=
  { p with m_connection := p.m_connection.terminate, trace := p.trace ++ [Event.terminate] }

/-- The method `Peer::processHelloMessage` (peer.cpp:64-81). -/
def Peer.processHelloMessage (env : Env) (message : HelloMessage) (p : Peer) : Peer :=
  if p.m_handshake then
    p.terminate
  else if message.version ≠ env.LATEST_VERSION then
    p.terminate
  else
    let p := { p with m_handshake := true }
    if p.m_starter then
      p
    else
      p.send ((Message.hello (HelloMessage.default env)).asJson env)

/-- The method `Peer::processGetPeersMessage` (peer.cpp:83-94); its argument is unused. -/
def Peer.processGetPeersMessage (env : Env) (p : Peer) : Peer :=
  if !p.m_handshake then
    p.terminate
  else
    let peerIps := p.m_node.getPeerIpsCopy
    let p := { p with trace := p.trace ++ [Event.getPeerIpsCopy] }
    let json := (Message.peers { peerIps := peerIps }).asJson env
    p.send json

/-- The method `Peer::processIHaveObjectMessage` (peer.cpp:96-110). -/
def Peer.processIHaveObjectMessage (env : Env) (message : IHaveObjectMessage) (p : Peer) :
    Peer :=
  if !p.m_handshake then
    p.terminate
  else
    let found := p.m_node.objectExists message.objectId
    let p := { p with trace := p.trace ++ [Event.objectExists message.objectId] }
    if found then
      p
    else
      let json := (Message.getObject { objectId := message.objectId }).asJson env
      p.send json

/-- The method `Peer::processObjectMessage` (peer.cpp:112-125). -/
def Peer.processObjectMessage (env : Env) (message : ObjectMessage) (p : Peer) : Peer :=
  if !p.m_handshake then
    p.terminate
  else
    let objectHash := env.SHA256AndEncode message.object
    let r := p.m_node.addObject objectHash message.object
    let p := { p with m_node := r.2,
                      trace := p.trace ++ [Event.addObject objectHash message.object r.1] }
    if r.1 then
      let msg := Message.iHaveObject { objectId := objectHash }
      { p with m_node := p.m_node.broadcastMessage (msg.asJson env),
               trace := p.trace ++ [Event.broadcastMessage (msg.asJson env)] }
    else
      p

/-- The method `Peer::processGetObjectMessage` (peer.cpp:127-142). -/
def Peer.processGetObjectMessage (env : Env) (message : GetObjectMessage) (p : Peer) : Peer :=
  if !p.m_handshake then
    p.terminate
  else
    let found := p.m_node.getObject message.objectId
    let p := { p with trace := p.trace ++ [Event.getObject message.objectId] }
    match found with
    | none => p
    | some object =>
        let json := (Message.object { object := object }).asJson env
        p.send json

/-- The method `Peer::processPeersMessage` (peer.cpp:144-152). -/
def Peer.processPeersMessage (message : PeersMessage) (p : Peer) : Peer :=
  if !p.m_handshake then
    p.terminate
  else
    { p with m_node := p.m_node.addNewPeers message.peerIps,
             trace := p.trace ++ [Event.addNewPeers message.peerIps] }

/-- What one pass through the `switch` of `processMessages` does: `handled` when a `case`
ran its handler and reached `break`; `noCase` when the `default:` label was taken;
`nullMessage` when a `case` was taken for a message of another class, so that the
`dynamic_cast` hands the handler a null pointer. -/
inductive SwitchResult where
  | handled (p : Peer)
  | noCase
  | nullMessage
  deriving DecidableEq, Repr

/-- The `switch (msg->messageType)` of `processMessages` (peer.cpp:36-59).  A tag outside
the six labels, or no tag at all, goes to `default:`. -/
def Peer.switchMessage (env : Env) (msg : Message) (p : Peer) : SwitchResult :=
  match msg.messageType with
  | some MessageType.HELLO =>
      match msg with
      | .hello m => .handled (p.processHelloMessage env m)
      | _ => .nullMessage
  | some MessageType.GET_PEERS => .handled (p.processGetPeersMessage env)
  | some MessageType.PEERS =>
      match msg with
      | .peers m => .handled (p.processPeersMessage m)
      | _ => .nullMessage
  | some MessageType.OBJECT =>
      match msg with
      | .object m => .handled (p.processObjectMessage env m)
      | _ => .nullMessage
  | some MessageType.GET_OBJECT =>
      match msg with
      | .getObject m => .handled (p.processGetObjectMessage env m)
      | _ => .nullMessage
  | some MessageType.I_HAVE_OBJECT =>
      match msg with
      | .iHaveObject m => .handled (p.processIHaveObjectMessage env m)
      | _ => .nullMessage
  | none => .noCase

/-- The loop of `Peer::processMessages` (peer.cpp:26-61), one iteration per unit of fuel.
The result is `none` when the fuel runs out with the loop condition still true, or when
a handler is handed a null message. -/
def Peer.processMessagesLoop (env : Env) : Nat → Peer → Option Peer
  | fuel, p =>
    if p.m_connection.isActive then
      match p.m_messages with
      | [] => some p
      | next :: _ =>
        match fuel with
        | 0 => none
        | fuel + 1 =>
          match env.parseFromJson next with
          | none => some p.terminate
          | some msg =>
            match p.switchMessage env msg with
            | .handled q =>
                Peer.processMessagesLoop env fuel { q with m_messages := q.m_messages.tail }
            | .noCase => some p.terminate
            | .nullMessage => none
    else
      some p

/-- The method `Peer::processMessages` (peer.cpp:25-62): the loop, with one unit of fuel
for each queued line. -/
def Peer.processMessages (env : Env) (p : Peer) : Option Peer :=
  Peer.processMessagesLoop env p.m_messages.length p

/-! ## Handling in queue order -/

/-- The handler of a message's own class, the one the `switch` of `processMessages`
calls for it. -/
def Peer.handle (env : Env) (p : Peer) : Message → Peer
  | .hello m => p.processHelloMessage env m
  | .getPeers => p.processGetPeersMessage env
  | .peers m => p.processPeersMessage m
  | .getObject m => p.processGetObjectMessage env m
  | .iHaveObject m => p.processIHaveObjectMessage env m
  | .object m => p.processObjectMessage env m

/-- The calls that handling `msg` on its own adds to the trace of `p`. -/
def eventsOf (env : Env) (msg : Message) (p : Peer) : List Event :=
  (p.handle env msg).trace.drop p.trace.length

/-- The concatenation, in queue order, of the calls each message produces on its own,
each message being handled in the state its predecessors left. -/
def eventsInQueueOrder (env : Env) : List Message → Peer → List Event
  | [], _ => []
  | msg :: rest, p => eventsOf env msg p ++ eventsInQueueOrder env rest (p.handle env msg)

/-- The state after handling the messages one at a time, in queue order. -/
def handleInQueueOrder (env : Env) (msgs : List Message) (p : Peer) : Peer :=
  msgs.foldl (fun s msg => s.handle env msg) p

/-! ## Session start and session states -/

/-- The method `Peer::startWork` up to the point where the reader thread is created
(peer.cpp:158-173); the two threads it then runs are not part of this definition. -/
def Peer.startWork (env : Env) (startCommunication : Bool) (p : Peer) : Peer :=
  if !p.m_connection.isActive then
    { p with m_running := false }
  else
    let p := { p with m_running := true, m_starter := startCommunication }
    if startCommunication then
      let p := p.send ((Message.hello (HelloMessage.default env)).asJson env)
      p.send (Message.getPeers.asJson env)
    else
      p

/-- The states of the session state machine. -/
inductive SessionState where
  | AWAITING_HANDSHAKE
  | ESTABLISHED
  | TERMINATED
  deriving DecidableEq, Repr

/-- The state a session is in: `TERMINATED` when the connection is inactive, otherwise
`ESTABLISHED` or `AWAITING_HANDSHAKE` as the handshake flag says. -/
def Peer.state (p : Peer) : SessionState :=
  if p.m_connection.isActive then
    if p.m_handshake then SessionState.ESTABLISHED else SessionState.AWAITING_HANDSHAKE
  else
    SessionState.TERMINATED

/-- Whether a sent text is one the decoder reads as a Hello. -/
def isHelloText (env : Env) (text : String) : Bool :=
  match env.parseFromJson text with
  | some (Message.hello _) => true
  | _ => false

/-- The reader path's append of the received tokens to the queue (peer.cpp:183). -/
def Peer.enqueue (p : Peer) (tokens : List String) : Peer :=
  { p with m_messages := p.m_messages ++ tokens }

/-! ## Decoding -/

/-- Modelled from the spec: `parseFromJson` and the per-variant parse functions are only
declared in messages.h (lines 153-159).  This is their work on an already parsed JSON
object: "reads `type`, looks it up in the fixed enumeration; on unknown/missing type, or
on a known type whose required fields are absent or of the wrong shape, returns a parse
failure". -/
def decodeJson (j : Json) : Option Message :=
  match j.lookup STR_TYPE with
  | some (JsonValue.str type) =>
    match GET_TYPE_at type with
    | some MessageType.HELLO =>
      match j.lookup STR_VERSION, j.lookup STR_AGENT with
      | some (JsonValue.str version), some (JsonValue.str agent) =>
          some (Message.hello { version := version, agent := agent })
      | _, _ => none
    | some MessageType.GET_PEERS => some Message.getPeers
    | some MessageType.PEERS =>
      match j.lookup STR_PEERS with
      | some (JsonValue.strs peerIps) => some (Message.peers { peerIps := peerIps })
      | _ => none
    | some MessageType.GET_OBJECT =>
      match j.lookup STR_OBJECT_ID with
      | some (JsonValue.str objectId) => some (Message.getObject { objectId := objectId })
      | _ => none
    | some MessageType.I_HAVE_OBJECT =>
      match j.lookup STR_OBJECT_ID with
      | some (JsonValue.str objectId) => some (Message.iHaveObject { objectId := objectId })
      | _ => none
    | some MessageType.OBJECT =>
      match j.lookup STR_OBJECT with
      | some (JsonValue.str object) => some (Message.object { object := object })
      | _ => none
    | none => none
  | _ => none

/-- Modelled from the spec: `parseFromJson`, "decode(line: string) -> Message |
ParseError: parses JSON, reads `type`, ...".  The JSON text parser is the library's
(`nlohmann::json::parse`) and is a parameter; `none` from it is unparseable JSON. -/
def decode (jsonParse : String → Option Json) (line : String) : Option Message :=
  (jsonParse line).bind decodeJson

/-! ## The content-addressed store -/

/-- Every entry of the store is keyed by the content hash of its payload. -/
def Node.contentAddressed (env : Env) (n : Node) : Bool :=
  n.objects.all fun kv => kv.1 == env.SHA256AndEncode kv.2

/-- An `addObject` call whose id is the content hash of its payload; every other call
passes. -/
def Event.hashKeyed (env : Env) : Event → Bool
  | .addObject id payload _ => id == env.SHA256AndEncode payload
  | _ => true

/-- The entries that the successful `addObject` calls of a trace inserted, in order. -/
def insertedBy (t : List Event) : List (String × String) :=
  t.filterMap fun e => match e with
    | .addObject id payload true => some (id, payload)
    | _ => none

/-! ## A concrete environment

Used to evaluate the definitions on concrete inputs. -/

/-- A rendering of one stored value. -/
def demoDumpValue : JsonValue → String
  | .str s => s
  | .strs xs => String.intercalate "," xs

/-- A rendering of an object, one `key=value` item per pair. -/
def demoDump (j : Json) : String :=
  String.intercalate ";" (j.map fun kv => kv.1 ++ "=" ++ demoDumpValue kv.2)

/-- The messages the concrete decoder knows. -/
def demoMessages : List Message :=
  [ Message.hello { version := "0.1", agent := "remote" },
    Message.hello { version := "9.9", agent := "remote" },
    Message.getPeers,
    Message.peers { peerIps := ["10.0.0.1", "10.0.0.2"] },
    Message.getObject { objectId := "missing" },
    Message.getObject { objectId := "sha(P)" },
    Message.iHaveObject { objectId := "sha(P)" },
    Message.object { object := "P" },
    Message.hello { version := "0.1", agent := "sylvestrupp" },
    Message.peers { peerIps := [] } ]

/-- A decoder that recognises exactly the renderings of `demoMessages`. -/
def demoParse (line : String) : Option Message :=
  demoMessages.find? fun m => demoDump m.toJson == line

/-- A JSON text parser that recognises exactly the renderings of `demoMessages`. -/
def demoJsonParse (line : String) : Option Json :=
  (demoMessages.map Message.toJson).find? fun j => demoDump j == line

/-- The concrete environment. -/
def demoEnv : Env :=
  { LATEST_VERSION := "0.1"
    NODE_NAME := "sylvestrupp"
    SHA256AndEncode := fun s => "sha(" ++ s ++ ")"
    parseFromJson := demoParse
    dump := demoDump }

/-- A node that knows no peer and holds no object. -/
def emptyNode : Node :=
  { peers := [], objects := [] }

/-- A session on a live connection with the given flags, queue and node. -/
def demoPeer (handshake starter : Bool) (queue : List String) (node : Node) : Peer :=
  { m_running := true
    m_handshake := handshake
    m_starter := starter
    m_messages := queue
    m_connection := { active := true }
    m_node := node
    trace := [] }

/-- A session whose connection is already dead when it is started. -/
def deadPeer : Peer :=
  { demoPeer false false [] emptyNode with m_connection := { active := false } }

/-! # Theorems -/

/-! ## The switch and the loop, one step at a time -/

theorem messageType_hello (m : HelloMessage) :
    (Message.hello m).messageType = some MessageType.HELLO := rfl

theorem messageType_getPeers : Message.getPeers.messageType = some MessageType.GET_PEERS := rfl

theorem messageType_peers (m : PeersMessage) :
    (Message.peers m).messageType = some MessageType.PEERS := rfl

theorem messageType_getObject (m : GetObjectMessage) :
    (Message.getObject m).messageType = some MessageType.GET_OBJECT := rfl

theorem messageType_iHaveObject (m : IHaveObjectMessage) :
    (Message.iHaveObject m).messageType = some MessageType.I_HAVE_OBJECT := rfl

theorem messageType_object (m : ObjectMessage) :
    (Message.object m).messageType = some MessageType.OBJECT := rfl

theorem switchMessage_hello (env : Env) (m : HelloMessage) (p : Peer) :
    p.switchMessage env (Message.hello m) = SwitchResult.handled (p.processHelloMessage env m) := by
  simp [Peer.switchMessage, messageType_hello]

theorem switchMessage_getPeers (env : Env) (p : Peer) :
    p.switchMessage env Message.getPeers = SwitchResult.handled (p.processGetPeersMessage env) := by
  simp [Peer.switchMessage, messageType_getPeers]

theorem switchMessage_peers (env : Env) (m : PeersMessage) (p : Peer) :
    p.switchMessage env (Message.peers m) = SwitchResult.handled (p.processPeersMessage m) := by
  simp [Peer.switchMessage, messageType_peers]

theorem switchMessage_getObject (env : Env) (m : GetObjectMessage) (p : Peer) :
    p.switchMessage env (Message.getObject m)
      = SwitchResult.handled (p.processGetObjectMessage env m) := by
  simp [Peer.switchMessage, messageType_getObject]

theorem switchMessage_iHaveObject (env : Env) (m : IHaveObjectMessage) (p : Peer) :
    p.switchMessage env (Message.iHaveObject m)
      = SwitchResult.handled (p.processIHaveObjectMessage env m) := by
  simp [Peer.switchMessage, messageType_iHaveObject]

theorem switchMessage_object (env : Env) (m : ObjectMessage) (p : Peer) :
    p.switchMessage env (Message.object m)
      = SwitchResult.handled (p.processObjectMessage env m) := by
  simp [Peer.switchMessage, messageType_object]

theorem processMessagesLoop_inactive (env : Env) (fuel : Nat) (p : Peer)
    (h : p.m_connection.isActive = false) : Peer.processMessagesLoop env fuel p = some p := by
  cases fuel <;> simp [Peer.processMessagesLoop, h]

theorem processMessagesLoop_nil (env : Env) (fuel : Nat) (p : Peer)
    (h : p.m_messages = []) : Peer.processMessagesLoop env fuel p = some p := by
  cases fuel <;> simp [Peer.processMessagesLoop, h]

theorem processMessagesLoop_handled (env : Env) (fuel : Nat) (p q : Peer) (next : String)
    (rest : List String) (msg : Message) (hactive : p.m_connection.isActive = true)
    (hq : p.m_messages = next :: rest) (hparse : env.parseFromJson next = some msg)
    (hswitch : p.switchMessage env msg = SwitchResult.handled q) :
    Peer.processMessagesLoop env (fuel + 1) p
      = Peer.processMessagesLoop env fuel { q with m_messages := q.m_messages.tail } := by
  rw [Peer.processMessagesLoop]
  simp [hactive, hq, hparse, hswitch]

/-- Before the handshake every handler but the Hello one only terminates the connection. -/
theorem switchMessage_before_handshake (env : Env) (p : Peer) (msg : Message)
    (hhs : p.m_handshake = false) (hnot : ∀ m, msg ≠ Message.hello m) :
    p.switchMessage env msg = SwitchResult.handled p.terminate := by
  cases msg with
  | hello m => exact absurd rfl (hnot m)
  | getPeers => simp [switchMessage_getPeers, Peer.processGetPeersMessage, hhs]
  | peers m => simp [switchMessage_peers, Peer.processPeersMessage, hhs]
  | getObject m => simp [switchMessage_getObject, Peer.processGetObjectMessage, hhs]
  | iHaveObject m => simp [switchMessage_iHaveObject, Peer.processIHaveObjectMessage, hhs]
  | object m => simp [switchMessage_object, Peer.processObjectMessage, hhs]

/-! ## Handshake -/

/-- C1 (handshake gating): on a live connection whose handshake flag is false, when the
line at the head of the queue decodes to a message that is not a Hello,
`processMessages` returns with the connection terminated; the only call it has made is
that `terminate` (so nothing was sent and the node was not called), the node is as it
was, and the handshake flag is still false. -/
theorem C1_handshake_gating (env : Env) (p : Peer) (next : String) (rest : List String)
    (msg : Message) (hactive : p.m_connection.isActive = true) (hhs : p.m_handshake = false)
    (hq : p.m_messages = next :: rest) (hparse : env.parseFromJson next = some msg)
    (hnot : ∀ m, msg ≠ Message.hello m) :
    ∃ q, p.processMessages env = some q ∧
      q.m_connection.isActive = false ∧
      q.trace = p.trace ++ [Event.terminate] ∧
      sends q.trace = sends p.trace ∧
      nodeCalls q.trace = nodeCalls p.trace ∧
      q.m_node = p.m_node ∧
      q.m_handshake = false := by
  refine ⟨{ p.terminate with m_messages := rest }, ?_, rfl, rfl, ?_, ?_, rfl, hhs⟩
  · have hsw := switchMessage_before_handshake env p msg hhs hnot
    have hlen : p.m_messages.length = rest.length + 1 := by simp [hq]
    rw [Peer.processMessages, hlen,
      processMessagesLoop_handled env rest.length p p.terminate next rest msg hactive hq hparse hsw]
    have htail : p.terminate.m_messages.tail = rest := by simp [Peer.terminate, hq]
    rw [htail]
    exact processMessagesLoop_inactive env _ _ rfl
  · simp [Peer.terminate, sends]
  · simp [Peer.terminate, nodeCalls, Event.isNodeCall]

/-- A witness for C1: a fresh responder whose first line is a GetPeers. -/
theorem C1_handshake_gating_witness :
    ∃ q, (demoPeer false false ["type=getpeers", "type=hello;version=0.1;agent=remote"]
        emptyNode).processMessages demoEnv = some q ∧
      q.m_connection.isActive = false ∧
      q.trace = [] ++ [Event.terminate] ∧
      sends q.trace = sends [] ∧
      nodeCalls q.trace = nodeCalls [] ∧
      q.m_node = emptyNode ∧
      q.m_handshake = false :=
  C1_handshake_gating demoEnv
    (demoPeer false false ["type=getpeers", "type=hello;version=0.1;agent=remote"] emptyNode)
    "type=getpeers" ["type=hello;version=0.1;agent=remote"] Message.getPeers rfl rfl rfl
    (by decide) (by intro m h; cases h)

/-- C2 (double handshake): when the handshake flag is already true, `processHelloMessage`
terminates the connection for every Hello, whatever its version and agent, and sends
nothing: the only call it makes is `terminate`. -/
theorem C2_double_handshake (env : Env) (p : Peer) (message : HelloMessage)
    (hhs : p.m_handshake = true) :
    (p.processHelloMessage env message).m_connection.isActive = false ∧
      (p.processHelloMessage env message).trace = p.trace ++ [Event.terminate] ∧
      sends (p.processHelloMessage env message).trace = sends p.trace := by
  simp [Peer.processHelloMessage, hhs, Peer.terminate, Connection.terminate,
    Connection.isActive, sends]

/-- A witness for C2: an established responder receives a Hello of the local version. -/
theorem C2_double_handshake_witness :
    ((demoPeer true false [] emptyNode).processHelloMessage demoEnv
        { version := "0.1", agent := "remote" }).m_connection.isActive = false ∧
      ((demoPeer true false [] emptyNode).processHelloMessage demoEnv
        { version := "0.1", agent := "remote" }).trace = [] ++ [Event.terminate] ∧
      sends ((demoPeer true false [] emptyNode).processHelloMessage demoEnv
        { version := "0.1", agent := "remote" }).trace = sends [] :=
  C2_double_handshake demoEnv (demoPeer true false [] emptyNode)
    { version := "0.1", agent := "remote" } rfl

/-- C3 (version check): for a Hello whose version differs from `LATEST_VERSION`,
`processHelloMessage` terminates the connection whatever the handshake flag and the
initiator flag are, sends nothing (its only call is `terminate`), and leaves the
handshake flag as it was. -/
theorem C3_version_check (env : Env) (p : Peer) (message : HelloMessage)
    (hversion : message.version ≠ env.LATEST_VERSION) :
    (p.processHelloMessage env message).m_connection.isActive = false ∧
      (p.processHelloMessage env message).trace = p.trace ++ [Event.terminate] ∧
      sends (p.processHelloMessage env message).trace = sends p.trace ∧
      (p.processHelloMessage env message).m_handshake = p.m_handshake := by
  by_cases hhs : p.m_handshake = true <;>
    simp [Peer.processHelloMessage, hhs, hversion, Peer.terminate, Connection.terminate,
      Connection.isActive, sends]

/-- A witness for C3: a fresh responder receives a Hello of another version. -/
theorem C3_version_check_witness :
    ((demoPeer false false [] emptyNode).processHelloMessage demoEnv
        { version := "9.9", agent := "remote" }).m_connection.isActive = false ∧
      ((demoPeer false false [] emptyNode).processHelloMessage demoEnv
        { version := "9.9", agent := "remote" }).trace = [] ++ [Event.terminate] ∧
      sends ((demoPeer false false [] emptyNode).processHelloMessage demoEnv
        { version := "9.9", agent := "remote" }).trace = sends [] ∧
      ((demoPeer false false [] emptyNode).processHelloMessage demoEnv
        { version := "9.9", agent := "remote" }).m_handshake = false :=
  C3_version_check demoEnv (demoPeer false false [] emptyNode)
    { version := "9.9", agent := "remote" } (by decide)

/-- C4 (successful handshake): with the handshake flag false and a Hello of the local
version, `processHelloMessage` sets the flag, leaves the connection as it was and never
calls `terminate`; a responder makes exactly one call, the send of the encoding of
`HelloMessage(LATEST_VERSION, NODE_NAME)`, and an initiator makes no call at all. -/
theorem C4_successful_handshake (env : Env) (p : Peer) (message : HelloMessage)
    (hhs : p.m_handshake = false) (hversion : message.version = env.LATEST_VERSION) :
    (p.processHelloMessage env message).m_handshake = true ∧
      (p.processHelloMessage env message).m_connection = p.m_connection ∧
      Event.terminate ∉ (p.processHelloMessage env message).trace.drop p.trace.length ∧
      (p.m_starter = false →
        (p.processHelloMessage env message).trace = p.trace ++ [Event.send
          ((Message.hello { version := env.LATEST_VERSION, agent := env.NODE_NAME }).asJson
            env)]) ∧
      (p.m_starter = true → (p.processHelloMessage env message).trace = p.trace) := by
  by_cases hst : p.m_starter = true <;>
    simp [Peer.processHelloMessage, hhs, hversion, hst, Peer.send, HelloMessage.default]

/-- A witness for C4: a fresh responder receives a Hello of the local version. -/
theorem C4_successful_handshake_witness :
    ((demoPeer false false [] emptyNode).processHelloMessage demoEnv
        { version := "0.1", agent := "remote" }).m_handshake = true ∧
      ((demoPeer false false [] emptyNode).processHelloMessage demoEnv
        { version := "0.1", agent := "remote" }).m_connection = { active := true } ∧
      ((demoPeer false false [] emptyNode).processHelloMessage demoEnv
        { version := "0.1", agent := "remote" }).trace
        = [Event.send "type=hello;version=0.1;agent=sylvestrupp"] := by
  have h := C4_successful_handshake demoEnv (demoPeer false false [] emptyNode)
    { version := "0.1", agent := "remote" } rfl rfl
  exact ⟨h.1, h.2.1, by rw [h.2.2.2.1 rfl]; rfl⟩

/-! ## Object store and peer registry -/

theorem lookup_append_absent (l : List (String × String)) (k v : String)
    (h : l.lookup k = none) : (l ++ [(k, v)]).lookup k = some v := by
  induction l with
  | nil => simp [List.lookup]
  | cons kv l ih =>
    obtain ⟨k0, v0⟩ := kv
    cases hk : k == k0 with
    | true => simp [List.lookup, hk] at h
    | false =>
      have hl : l.lookup k = none := by simpa [List.lookup, hk] using h
      simp [List.lookup, hk, ih hl]

/-- C5 (dedup broadcast): in an established session, with `H` the content hash of the
payload `P`, `processObjectMessage` makes one `addObject(H, P)` call; when the store did
not hold `H` the insert succeeds, the store then holds `P` under `H`, and exactly one
broadcast follows, of the encoded `IHaveObject` for `H`; when the store already held `H`
the insert fails, nothing is broadcast and the node is unchanged.  From an empty store,
delivering the same Object twice gives one successful insert, one broadcast, and then
one rejected insert. -/
theorem C5_dedup_broadcast (env : Env) (p : Peer) (message : ObjectMessage)
    (hhs : p.m_handshake = true) :
    (p.m_node.objectExists (env.SHA256AndEncode message.object) = false →
      (p.processObjectMessage env message).trace = p.trace ++
        [Event.addObject (env.SHA256AndEncode message.object) message.object true,
          Event.broadcastMessage ((Message.iHaveObject
            { objectId := env.SHA256AndEncode message.object }).asJson env)] ∧
      broadcasts (p.processObjectMessage env message).trace = broadcasts p.trace ++
        [(Message.iHaveObject { objectId := env.SHA256AndEncode message.object }).asJson env] ∧
      (p.processObjectMessage env message).m_node.getObject
        (env.SHA256AndEncode message.object) = some message.object) ∧
    (p.m_node.objectExists (env.SHA256AndEncode message.object) = true →
      (p.processObjectMessage env message).trace = p.trace ++
        [Event.addObject (env.SHA256AndEncode message.object) message.object false] ∧
      broadcasts (p.processObjectMessage env message).trace = broadcasts p.trace ∧
      (p.processObjectMessage env message).m_node = p.m_node) ∧
    (p.m_node.objects = [] →
      ((p.processObjectMessage env message).processObjectMessage env message).trace
        = p.trace ++
          [Event.addObject (env.SHA256AndEncode message.object) message.object true,
            Event.broadcastMessage ((Message.iHaveObject
              { objectId := env.SHA256AndEncode message.object }).asJson env),
            Event.addObject (env.SHA256AndEncode message.object) message.object false] ∧
      broadcasts ((p.processObjectMessage env message).processObjectMessage env message).trace
        = broadcasts p.trace ++
          [(Message.iHaveObject { objectId := env.SHA256AndEncode message.object }).asJson
            env]) := by
  refine ⟨?_, ?_, ?_⟩
  · intro hex
    have hnone : p.m_node.objects.lookup (env.SHA256AndEncode message.object) = none := by
      simpa [Node.objectExists] using hex
    simp [Peer.processObjectMessage, hhs, Node.addObject, hex, broadcasts, Node.getObject,
      Node.broadcastMessage, lookup_append_absent _ _ _ hnone]
  · intro hex
    simp [Peer.processObjectMessage, hhs, Node.addObject, hex, broadcasts]
  · intro hempty
    simp [Peer.processObjectMessage, hhs, Node.addObject, Node.objectExists, hempty,
      Node.broadcastMessage, broadcasts, List.lookup]

/-- A witness for C5: an established responder over an empty store is given the payload
`P` twice. -/
theorem C5_dedup_broadcast_witness :
    (((demoPeer true false [] emptyNode).processObjectMessage demoEnv
        { object := "P" }).processObjectMessage demoEnv { object := "P" }).trace
      = [Event.addObject "sha(P)" "P" true,
          Event.broadcastMessage "type=ihaveobject;objectid=sha(P)",
          Event.addObject "sha(P)" "P" false] :=
  ((C5_dedup_broadcast demoEnv (demoPeer true false [] emptyNode)
    { object := "P" } rfl).2.2 rfl).1

/-- C6 (fetch on announce): in an established session `processIHaveObjectMessage` asks
the node once whether it holds the announced id; when it does not, exactly one message
is sent, the encoded `GetObject` for that id, and when it does, nothing is sent.  Either
way the node (store and peer registry) and the connection are as they were. -/
theorem C6_fetch_on_announce (env : Env) (p : Peer) (message : IHaveObjectMessage)
    (hhs : p.m_handshake = true) :
    (p.m_node.objectExists message.objectId = false →
      (p.processIHaveObjectMessage env message).trace = p.trace ++
        [Event.objectExists message.objectId,
          Event.send ((Message.getObject { objectId := message.objectId }).asJson env)]) ∧
    (p.m_node.objectExists message.objectId = true →
      (p.processIHaveObjectMessage env message).trace = p.trace ++
        [Event.objectExists message.objectId]) ∧
    (p.processIHaveObjectMessage env message).m_node = p.m_node ∧
    (p.processIHaveObjectMessage env message).m_connection = p.m_connection := by
  cases hex : p.m_node.objectExists message.objectId <;>
    simp [Peer.processIHaveObjectMessage, hhs, hex, Peer.send]

/-- A witness for C6: an announcement of an id the empty store lacks. -/
theorem C6_fetch_on_announce_witness :
    ((demoPeer true false [] emptyNode).processIHaveObjectMessage demoEnv
        { objectId := "sha(P)" }).trace
      = [Event.objectExists "sha(P)", Event.send "type=getobject;objectid=sha(P)"] :=
  (C6_fetch_on_announce demoEnv (demoPeer true false [] emptyNode)
    { objectId := "sha(P)" } rfl).1 rfl

/-- C7 (GetObject lookup): in an established session `processGetObjectMessage` looks the
requested id up once; when the store holds a payload under it, exactly one message is
sent, the encoded `Object` carrying that payload, and when it holds none, nothing is
sent.  Either way the connection and the node are as they were. -/
theorem C7_getobject_lookup (env : Env) (p : Peer) (message : GetObjectMessage)
    (hhs : p.m_handshake = true) :
    (∀ payload, p.m_node.getObject message.objectId = some payload →
      (p.processGetObjectMessage env message).trace = p.trace ++
        [Event.getObject message.objectId,
          Event.send ((Message.object { object := payload }).asJson env)]) ∧
    (p.m_node.getObject message.objectId = none →
      (p.processGetObjectMessage env message).trace = p.trace ++
        [Event.getObject message.objectId]) ∧
    (p.processGetObjectMessage env message).m_connection = p.m_connection ∧
    (p.processGetObjectMessage env message).m_node = p.m_node := by
  cases hget : p.m_node.getObject message.objectId <;>
    simp [Peer.processGetObjectMessage, hhs, hget, Peer.send]

/-- A witness for C7: a request for an id the store holds. -/
theorem C7_getobject_lookup_witness :
    ((demoPeer true false [] { peers := [], objects := [("sha(P)", "P")] }).processGetObjectMessage
        demoEnv { objectId := "sha(P)" }).trace
      = [Event.getObject "sha(P)", Event.send "type=object;object=P"] :=
  (C7_getobject_lookup demoEnv
    (demoPeer true false [] { peers := [], objects := [("sha(P)", "P")] })
    { objectId := "sha(P)" } rfl).1 "P" rfl

/-- C8 (GetPeers reply): in an established session `processGetPeersMessage` reads the
node's peer list once and sends exactly one message, the encoding of the `Peers` message
whose `peerIps` is that list, element for element; in the encoded object the list sits
under the key `peers`.  The node (registry and store) is as it was. -/
theorem C8_getpeers_reply (env : Env) (p : Peer) (hhs : p.m_handshake = true) :
    (p.processGetPeersMessage env).trace = p.trace ++
      [Event.getPeerIpsCopy,
        Event.send ((Message.peers { peerIps := p.m_node.getPeerIpsCopy }).asJson env)] ∧
    (Message.peers { peerIps := p.m_node.getPeerIpsCopy }).toJson.lookup STR_PEERS
      = some (JsonValue.strs p.m_node.peers) ∧
    (p.processGetPeersMessage env).m_node = p.m_node := by
  refine ⟨?_, ?_, ?_⟩
  · simp [Peer.processGetPeersMessage, hhs, Peer.send]
  · simp only [Message.toJson, Node.getPeerIpsCopy]
    rfl
  · simp [Peer.processGetPeersMessage, hhs, Peer.send]

/-- A witness for C8: an established responder whose node knows two peers. -/
theorem C8_getpeers_reply_witness :
    ((demoPeer true false [] { peers := ["10.0.0.1", "10.0.0.2"], objects := [] }).processGetPeersMessage
        demoEnv).trace
      = [Event.getPeerIpsCopy, Event.send "type=peers;peers=10.0.0.1,10.0.0.2"] :=
  (C8_getpeers_reply demoEnv
    (demoPeer true false [] { peers := ["10.0.0.1", "10.0.0.2"], objects := [] }) rfl).1

/-- C9 (Peers merge): in an established session `processPeersMessage` makes exactly one
call, `addNewPeers` with the received list unchanged and in order; nothing is sent, and
the object store, the handshake flag and the connection are as they were. -/
theorem C9_peers_merge (p : Peer) (message : PeersMessage) (hhs : p.m_handshake = true) :
    (p.processPeersMessage message).trace = p.trace ++ [Event.addNewPeers message.peerIps] ∧
    (p.processPeersMessage message).m_node = p.m_node.addNewPeers message.peerIps ∧
    sends (p.processPeersMessage message).trace = sends p.trace ∧
    (p.processPeersMessage message).m_node.objects = p.m_node.objects ∧
    (p.processPeersMessage message).m_handshake = p.m_handshake ∧
    (p.processPeersMessage message).m_connection = p.m_connection := by
  simp [Peer.processPeersMessage, hhs, sends, Node.addNewPeers]

/-- A witness for C9: two addresses arrive at a node that already knows one of them. -/
theorem C9_peers_merge_witness :
    ((demoPeer true false [] { peers := ["10.0.0.2"], objects := [] }).processPeersMessage
        { peerIps := ["10.0.0.1", "10.0.0.2"] }).trace
        = [Event.addNewPeers ["10.0.0.1", "10.0.0.2"]] ∧
    ((demoPeer true false [] { peers := ["10.0.0.2"], objects := [] }).processPeersMessage
        { peerIps := ["10.0.0.1", "10.0.0.2"] }).m_node
        = { peers := ["10.0.0.2", "10.0.0.1"], objects := [] } := by
  have h := C9_peers_merge (demoPeer true false [] { peers := ["10.0.0.2"], objects := [] })
    { peerIps := ["10.0.0.1", "10.0.0.2"] } rfl
  exact ⟨h.1, by rw [h.2.1]; decide⟩

/-! ## Queue order -/

theorem switchMessage_eq_handle (env : Env) (p : Peer) (msg : Message) :
    p.switchMessage env msg = SwitchResult.handled (p.handle env msg) := by
  cases msg with
  | hello m => exact switchMessage_hello env m p
  | getPeers => exact switchMessage_getPeers env p
  | peers m => exact switchMessage_peers env m p
  | getObject m => exact switchMessage_getObject env m p
  | iHaveObject m => exact switchMessage_iHaveObject env m p
  | object m => exact switchMessage_object env m p

/-- No handler touches the queue. -/
theorem handle_messages (env : Env) (p : Peer) (msg : Message) :
    (p.handle env msg).m_messages = p.m_messages := by
  cases msg <;>
    simp only [Peer.handle, Peer.processHelloMessage, Peer.processGetPeersMessage,
      Peer.processPeersMessage, Peer.processGetObjectMessage, Peer.processIHaveObjectMessage,
      Peer.processObjectMessage, Peer.terminate, Peer.send] <;>
    (repeat' split) <;> rfl

/-- No handler reads the queue. -/
theorem handle_setMessages (env : Env) (p : Peer) (msg : Message) (l : List String) :
    Peer.handle env { p with m_messages := l } msg = { p.handle env msg with m_messages := l } := by
  cases msg <;>
    simp only [Peer.handle, Peer.processHelloMessage, Peer.processGetPeersMessage,
      Peer.processPeersMessage, Peer.processGetObjectMessage, Peer.processIHaveObjectMessage,
      Peer.processObjectMessage, Peer.terminate, Peer.send] <;>
    (repeat' split) <;> simp_all

/-- Every handler only appends to the trace. -/
theorem handle_trace (env : Env) (p : Peer) (msg : Message) :
    (p.handle env msg).trace = p.trace ++ eventsOf env msg p := by
  have h : ∃ es, (p.handle env msg).trace = p.trace ++ es := by
    cases msg <;>
      simp only [Peer.handle, Peer.processHelloMessage, Peer.processGetPeersMessage,
        Peer.processPeersMessage, Peer.processGetObjectMessage, Peer.processIHaveObjectMessage,
        Peer.processObjectMessage, Peer.terminate, Peer.send] <;>
      (repeat' split) <;> simp
  obtain ⟨es, hes⟩ := h
  simp [eventsOf, hes]

/-- In an established session a message that is not a Hello is handled without a
violation: the session stays established and the connection is not touched. -/
theorem handle_established (env : Env) (p : Peer) (msg : Message)
    (hhs : p.m_handshake = true) (hnot : ∀ m, msg ≠ Message.hello m) :
    (p.handle env msg).m_handshake = true ∧ (p.handle env msg).m_connection = p.m_connection := by
  cases msg with
  | hello m => exact absurd rfl (hnot m)
  | getPeers => simp [Peer.handle, Peer.processGetPeersMessage, hhs, Peer.send]
  | peers m => simp [Peer.handle, Peer.processPeersMessage, hhs]
  | getObject m =>
    cases hget : p.m_node.getObject m.objectId <;>
      simp [Peer.handle, Peer.processGetObjectMessage, hhs, hget, Peer.send]
  | iHaveObject m =>
    cases hex : p.m_node.objectExists m.objectId <;>
      simp [Peer.handle, Peer.processIHaveObjectMessage, hhs, hex, Peer.send]
  | object m =>
    cases hadd : (p.m_node.addObject (env.SHA256AndEncode m.object) m.object).1 <;>
      simp [Peer.handle, Peer.processObjectMessage, hhs, hadd]

theorem handleInQueueOrder_setMessages (env : Env) (msgs : List Message) (p : Peer)
    (l : List String) :
    handleInQueueOrder env msgs { p with m_messages := l }
      = { handleInQueueOrder env msgs p with m_messages := l } := by
  induction msgs generalizing p with
  | nil => rfl
  | cons msg rest ih =>
    simp only [handleInQueueOrder, List.foldl_cons] at ih ⊢
    rw [handle_setMessages, ih]

theorem handleInQueueOrder_trace (env : Env) (msgs : List Message) (p : Peer) :
    (handleInQueueOrder env msgs p).trace = p.trace ++ eventsInQueueOrder env msgs p := by
  induction msgs generalizing p with
  | nil => simp [handleInQueueOrder, eventsInQueueOrder]
  | cons msg rest ih =>
    simp only [handleInQueueOrder, List.foldl_cons, eventsInQueueOrder] at ih ⊢
    rw [ih, handle_trace, List.append_assoc]

theorem handleInQueueOrder_established (env : Env) (msgs : List Message) (p : Peer)
    (hhs : p.m_handshake = true) (hnot : ∀ msg ∈ msgs, ∀ m, msg ≠ Message.hello m) :
    (handleInQueueOrder env msgs p).m_handshake = true ∧
      (handleInQueueOrder env msgs p).m_connection = p.m_connection := by
  induction msgs generalizing p with
  | nil => exact ⟨hhs, rfl⟩
  | cons msg rest ih =>
    have h1 := handle_established env p msg hhs (hnot msg (List.mem_cons_self _ _))
    have h2 := ih (p.handle env msg) h1.1 (fun x hx => hnot x (List.mem_cons_of_mem _ hx))
    simp only [handleInQueueOrder, List.foldl_cons] at h2 ⊢
    exact ⟨h2.1, h2.2.trans h1.2⟩

/-- The loop over a queue of lines that decode to non-Hello messages, in an established
session on a live connection: it returns, having applied the handlers in queue order. -/
theorem processMessagesLoop_queue (env : Env) (msgs : List Message) (lines : List String)
    (p : Peer) (hq : p.m_messages = lines)
    (hdecode : lines.map env.parseFromJson = msgs.map some)
    (hactive : p.m_connection.isActive = true) (hhs : p.m_handshake = true)
    (hnot : ∀ msg ∈ msgs, ∀ m, msg ≠ Message.hello m) :
    Peer.processMessagesLoop env lines.length p
      = some { handleInQueueOrder env msgs p with m_messages := [] } := by
  induction msgs generalizing lines p with
  | nil =>
    have hl : lines = [] := by simpa using hdecode
    subst hl
    rw [processMessagesLoop_nil env _ p hq]
    cases p
    simp_all [handleInQueueOrder]
  | cons msg rest ih =>
    cases lines with
    | nil => simp at hdecode
    | cons next more =>
      simp only [List.map_cons, List.cons.injEq] at hdecode
      obtain ⟨hparse, hmore⟩ := hdecode
      have h1 := handle_established env p msg hhs (hnot msg (List.mem_cons_self _ _))
      rw [List.length_cons, processMessagesLoop_handled env more.length p (p.handle env msg)
        next more msg hactive hq hparse (switchMessage_eq_handle env p msg)]
      have htail : (p.handle env msg).m_messages.tail = more := by
        rw [handle_messages, hq]; rfl
      rw [htail, ih more { p.handle env msg with m_messages := more } rfl hmore
        (by simpa [h1.2] using hactive) h1.1
        (fun x hx => hnot x (List.mem_cons_of_mem _ hx)),
        handleInQueueOrder_setMessages]
      rfl

/-- C10 (FIFO ordering): in an established session on a live connection, when every
queued line decodes and none of the messages is a violation (in an established session
that is: none is a Hello), `processMessages` returns the state reached by running the
handlers one at a time in queue order; the calls it has added to the trace are the
concatenation, in queue order, of the calls each message produces on its own in the
state its predecessors left; the queue is empty and the connection still live.  For
the queue GetPeers, GetObject of a missing id, Peers, the node calls are, in order, the
peer-list read, the store lookup and the registry merge. -/
theorem C10_fifo_ordering (env : Env) (p : Peer) (msgs : List Message)
    (hactive : p.m_connection.isActive = true) (hhs : p.m_handshake = true)
    (hdecode : p.m_messages.map env.parseFromJson = msgs.map some)
    (hnot : ∀ msg ∈ msgs, ∀ m, msg ≠ Message.hello m) :
    ∃ q, p.processMessages env = some q ∧
      q = { handleInQueueOrder env msgs p with m_messages := [] } ∧
      q.trace = p.trace ++ eventsInQueueOrder env msgs p ∧
      q.m_messages = [] ∧
      q.m_connection.isActive = true ∧
      (∀ id ips, msgs = [Message.getPeers, Message.getObject { objectId := id },
            Message.peers { peerIps := ips }] →
          p.m_node.getObject id = none →
        eventsInQueueOrder env msgs p
            = [Event.getPeerIpsCopy,
                Event.send ((Message.peers { peerIps := p.m_node.getPeerIpsCopy }).asJson env),
                Event.getObject id, Event.addNewPeers ips] ∧
          nodeCalls (eventsInQueueOrder env msgs p)
            = [Event.getPeerIpsCopy, Event.getObject id, Event.addNewPeers ips]) := by
  refine ⟨_, processMessagesLoop_queue env msgs p.m_messages p rfl hdecode hactive hhs hnot,
    rfl, handleInQueueOrder_trace env msgs p, rfl, ?_, ?_⟩
  · have h := (handleInQueueOrder_established env msgs p hhs hnot).2
    simpa [h] using hactive
  · intro id ips hmsgs hmissing
    subst hmsgs
    have hev : eventsInQueueOrder env [Message.getPeers, Message.getObject { objectId := id },
          Message.peers { peerIps := ips }] p
        = [Event.getPeerIpsCopy,
            Event.send ((Message.peers { peerIps := p.m_node.getPeerIpsCopy }).asJson env),
            Event.getObject id, Event.addNewPeers ips] := by
      simp [eventsInQueueOrder, eventsOf, Peer.handle, Peer.processGetPeersMessage,
        Peer.processGetObjectMessage, Peer.processPeersMessage, Peer.send, hhs, hmissing]
    rw [hev]
    exact ⟨rfl, by simp [nodeCalls, Event.isNodeCall]⟩

/-- A witness for C10: the queue GetPeers, GetObject of a missing id, Peers on an
established responder. -/
theorem C10_fifo_ordering_witness :
    ∃ q, (demoPeer true false ["type=getpeers", "type=getobject;objectid=missing",
        "type=peers;peers=10.0.0.1,10.0.0.2"] emptyNode).processMessages demoEnv = some q ∧
      q.m_messages = [] ∧
      nodeCalls q.trace = [Event.getPeerIpsCopy, Event.getObject "missing",
        Event.addNewPeers ["10.0.0.1", "10.0.0.2"]] := by
  obtain ⟨q, hq, -, htrace, hempty, -, hcalls⟩ := C10_fifo_ordering demoEnv
    (demoPeer true false ["type=getpeers", "type=getobject;objectid=missing",
      "type=peers;peers=10.0.0.1,10.0.0.2"] emptyNode)
    [Message.getPeers, Message.getObject { objectId := "missing" },
      Message.peers { peerIps := ["10.0.0.1", "10.0.0.2"] }]
    rfl rfl (by decide) (by intro msg hmem m h; subst h; simp at hmem)
  refine ⟨q, hq, hempty, ?_⟩
  rw [htrace]
  exact (hcalls "missing" ["10.0.0.1", "10.0.0.2"] rfl rfl).2

/-! ## The loop in general -/

theorem processMessagesLoop_parseFail (env : Env) (fuel : Nat) (p : Peer) (next : String)
    (rest : List String) (hactive : p.m_connection.isActive = true)
    (hq : p.m_messages = next :: rest) (hparse : env.parseFromJson next = none) :
    Peer.processMessagesLoop env (fuel + 1) p = some p.terminate := by
  rw [Peer.processMessagesLoop]
  simp [hactive, hq, hparse]

/-- The loop returns whenever it has a unit of fuel for each queued line, and any relation
between its entry and exit states that holds where the loop stops and composes backwards
over one handled line holds of the whole run. -/
theorem processMessagesLoop_rel (env : Env) (R : Peer → Peer → Prop)
    (hstop : ∀ p : Peer, p.m_connection.isActive = false ∨ p.m_messages = [] → R p p)
    (hfail : ∀ (p : Peer) (next : String) (rest : List String),
      p.m_connection.isActive = true → p.m_messages = next :: rest →
      env.parseFromJson next = none → R p p.terminate)
    (hstep : ∀ (p q : Peer) (next : String) (rest : List String) (msg : Message),
      p.m_connection.isActive = true → p.m_messages = next :: rest →
      env.parseFromJson next = some msg →
      R { p.handle env msg with m_messages := rest } q → R p q) :
    ∀ (n : Nat) (p : Peer), p.m_messages.length = n →
      ∃ q, R p q ∧ ∀ fuel, n ≤ fuel → Peer.processMessagesLoop env fuel p = some q := by
  intro n
  induction n with
  | zero =>
    intro p hn
    have hnil : p.m_messages = [] := List.length_eq_zero.mp hn
    exact ⟨p, hstop p (Or.inr hnil), fun fuel _ => processMessagesLoop_nil env fuel p hnil⟩
  | succ n ih =>
    intro p hn
    cases hactive : p.m_connection.isActive with
    | false =>
      exact ⟨p, hstop p (Or.inl hactive),
        fun fuel _ => processMessagesLoop_inactive env fuel p hactive⟩
    | true =>
      cases hq : p.m_messages with
      | nil => simp [hq] at hn
      | cons next rest =>
        have hrest : rest.length = n := by simpa [hq] using hn
        cases hparse : env.parseFromJson next with
        | none =>
          refine ⟨p.terminate, hfail p next rest hactive hq hparse, ?_⟩
          intro fuel hfuel
          obtain ⟨f, rfl⟩ : ∃ f, fuel = f + 1 := ⟨fuel - 1, by omega⟩
          exact processMessagesLoop_parseFail env f p next rest hactive hq hparse
        | some msg =>
          obtain ⟨q, hR, hloop⟩ := ih { p.handle env msg with m_messages := rest } hrest
          refine ⟨q, hstep p q next rest msg hactive hq hparse hR, ?_⟩
          intro fuel hfuel
          obtain ⟨f, rfl⟩ : ∃ f, fuel = f + 1 := ⟨fuel - 1, by omega⟩
          rw [processMessagesLoop_handled env f p (p.handle env msg) next rest msg hactive hq
            hparse (switchMessage_eq_handle env p msg)]
          have htail : (p.handle env msg).m_messages.tail = rest := by
            rw [handle_messages, hq]; rfl
          rw [htail]
          exact hloop f (by omega)

/-- No handler clears the handshake flag and none revives the connection. -/
theorem handle_monotone (env : Env) (p : Peer) (msg : Message) :
    (p.m_handshake = true → (p.handle env msg).m_handshake = true) ∧
      (p.m_connection.isActive = false → (p.handle env msg).m_connection.isActive = false) := by
  cases msg <;>
    simp only [Peer.handle, Peer.processHelloMessage, Peer.processGetPeersMessage,
      Peer.processPeersMessage, Peer.processGetObjectMessage, Peer.processIHaveObjectMessage,
      Peer.processObjectMessage, Peer.terminate, Peer.send, Connection.terminate,
      Connection.isActive] <;>
    (repeat' split) <;> simp_all

/-! ## Malformed lines, states, termination -/

/-- C11 (a malformed message is fatal and stops the queue): on a live connection whose
queue head fails to decode, `processMessages` returns with the connection terminated,
having made no call but that `terminate`; the handshake flag, the node and the queue are
as they were, so no line behind the head was handled.  Every later call of
`processMessages`, whatever the queue then holds, returns at once with the session
unchanged. -/
theorem C11_malformed_is_fatal (env : Env) (p : Peer) (next : String) (rest : List String)
    (hactive : p.m_connection.isActive = true) (hq : p.m_messages = next :: rest)
    (hparse : env.parseFromJson next = none) :
    ∃ q, p.processMessages env = some q ∧
      q.m_connection.isActive = false ∧
      q.trace = p.trace ++ [Event.terminate] ∧
      sends q.trace = sends p.trace ∧
      nodeCalls q.trace = nodeCalls p.trace ∧
      q.m_handshake = p.m_handshake ∧
      q.m_node = p.m_node ∧
      q.m_messages = next :: rest ∧
      ∀ later : List String,
        Peer.processMessages env { q with m_messages := later }
          = some { q with m_messages := later } := by
  refine ⟨p.terminate, ?_, rfl, rfl, ?_, ?_, rfl, rfl, hq, ?_⟩
  · have hlen : p.m_messages.length = rest.length + 1 := by simp [hq]
    rw [Peer.processMessages, hlen]
    exact processMessagesLoop_parseFail env rest.length p next rest hactive hq hparse
  · simp [Peer.terminate, sends]
  · simp [Peer.terminate, nodeCalls, Event.isNodeCall]
  · intro later
    exact processMessagesLoop_inactive env _ _ rfl

/-- A witness for C11: a line the decoder rejects, with a Hello and an Object behind it. -/
theorem C11_malformed_is_fatal_witness :
    ∃ q, (demoPeer false false ["not json", "type=hello;version=0.1;agent=remote",
        "type=object;object=P"] emptyNode).processMessages demoEnv = some q ∧
      q.m_connection.isActive = false ∧
      q.trace = [] ++ [Event.terminate] ∧
      q.m_handshake = false ∧
      q.m_node = emptyNode ∧
      Peer.processMessages demoEnv
          { q with m_messages := ["type=hello;version=0.1;agent=remote"] }
        = some { q with m_messages := ["type=hello;version=0.1;agent=remote"] } := by
  obtain ⟨q, hq, hdead, htrace, -, -, hhs, hnode, -, hlater⟩ := C11_malformed_is_fatal demoEnv
    (demoPeer false false ["not json", "type=hello;version=0.1;agent=remote",
      "type=object;object=P"] emptyNode)
    "not json" ["type=hello;version=0.1;agent=remote", "type=object;object=P"] rfl rfl
    (by decide)
  exact ⟨q, hq, hdead, htrace, hhs, hnode, hlater _⟩

/-- C13 (the state machine never moves backwards): for every session and every queue,
`processMessages` returns, and neither it nor any handler it calls takes an
`ESTABLISHED` session to `AWAITING_HANDSHAKE` or a `TERMINATED` session to another
state. -/
theorem C13_no_backward_transition (env : Env) (p : Peer) :
    (∃ q, p.processMessages env = some q ∧
      (p.state = SessionState.ESTABLISHED → q.state ≠ SessionState.AWAITING_HANDSHAKE) ∧
      (p.state = SessionState.TERMINATED → q.state = SessionState.TERMINATED)) ∧
    ∀ msg : Message,
      (p.state = SessionState.ESTABLISHED →
        (p.handle env msg).state ≠ SessionState.AWAITING_HANDSHAKE) ∧
      (p.state = SessionState.TERMINATED →
        (p.handle env msg).state = SessionState.TERMINATED) := by
  have hstate : ∀ a b : Peer, (a.m_handshake = true → b.m_handshake = true) →
      (a.m_connection.isActive = false → b.m_connection.isActive = false) →
      (a.state = SessionState.ESTABLISHED → b.state ≠ SessionState.AWAITING_HANDSHAKE) ∧
      (a.state = SessionState.TERMINATED → b.state = SessionState.TERMINATED) := by
    intro a b h1 h2
    cases ha : a.m_connection.isActive <;> cases hh : a.m_handshake <;>
      cases hb : b.m_connection.isActive <;> cases hh2 : b.m_handshake <;>
      simp_all [Peer.state]
  constructor
  · obtain ⟨q, ⟨h1, h2⟩, hloop⟩ := processMessagesLoop_rel env
      (fun a b => (a.m_handshake = true → b.m_handshake = true) ∧
        (a.m_connection.isActive = false → b.m_connection.isActive = false))
      (fun a _ => ⟨id, id⟩)
      (fun a _ _ hactive _ _ => ⟨fun h => h, fun h => by simp [hactive] at h⟩)
      (fun a b _ rest msg hactive _ _ hR =>
        ⟨fun h => hR.1 ((handle_monotone env a msg).1 h), fun h => by simp [hactive] at h⟩)
      p.m_messages.length p rfl
    exact ⟨q, hloop _ (Nat.le_refl _), hstate p q h1 h2⟩
  · intro msg
    exact hstate p (p.handle env msg) (handle_monotone env p msg).1
      (handle_monotone env p msg).2

/-- A run of the loop handles the lines at the front of the queue, one message for each
line and in queue order, and removes exactly those lines: the exit state is the state
the handlers of their decodings leave, with the queue cut by as many lines as messages
were handled, or that state terminated at a following line that fails to decode. -/
theorem processMessagesLoop_consumes (env : Env) (p : Peer) :
    ∃ q msgs, (∀ fuel, p.m_messages.length ≤ fuel →
        Peer.processMessagesLoop env fuel p = some q) ∧
      (p.m_messages.take msgs.length).map env.parseFromJson = msgs.map some ∧
      msgs.length ≤ p.m_messages.length ∧
      (q = { handleInQueueOrder env msgs p with
              m_messages := p.m_messages.drop msgs.length } ∨
        (q = Peer.terminate { handleInQueueOrder env msgs p with
              m_messages := p.m_messages.drop msgs.length } ∧
          ∃ next rest, p.m_messages.drop msgs.length = next :: rest ∧
            env.parseFromJson next = none)) ∧
      (q.m_connection.isActive = true → q.m_messages = []) := by
  obtain ⟨q, ⟨⟨msgs, h⟩, hempty⟩, hloop⟩ := processMessagesLoop_rel env
    (fun a b => (∃ msgs : List Message,
        (a.m_messages.take msgs.length).map env.parseFromJson = msgs.map some ∧
        msgs.length ≤ a.m_messages.length ∧
        (b = { handleInQueueOrder env msgs a with
                m_messages := a.m_messages.drop msgs.length } ∨
          (b = Peer.terminate { handleInQueueOrder env msgs a with
                m_messages := a.m_messages.drop msgs.length } ∧
            ∃ next rest, a.m_messages.drop msgs.length = next :: rest ∧
              env.parseFromJson next = none))) ∧
      (b.m_connection.isActive = true → b.m_messages = []))
    (fun a ha => ⟨⟨[], rfl, Nat.zero_le _, Or.inl rfl⟩, fun hact => by
      rcases ha with ha | ha
      · simp [ha] at hact
      · exact ha⟩)
    (fun a next rest _ hq hparse =>
      ⟨⟨[], rfl, Nat.zero_le _, Or.inr ⟨rfl, next, rest, hq, hparse⟩⟩, fun hact => by
        simp [Peer.terminate, Connection.terminate, Connection.isActive] at hact⟩)
    (fun a b next rest msg _ hq hparse hR => by
      obtain ⟨⟨msgs, htake, hle, hcase⟩, hempty⟩ := hR
      refine ⟨⟨msg :: msgs, ?_, ?_, ?_⟩, hempty⟩
      · simp only [List.length_cons, hq, List.take_succ_cons, List.map_cons, hparse]
        exact congrArg _ htake
      · simp only [List.length_cons, hq]
        exact Nat.succ_le_succ hle
      · simp only [handleInQueueOrder_setMessages] at hcase
        simp only [List.length_cons, hq, List.drop_succ_cons]
        exact hcase)
    p.m_messages.length p rfl
  exact ⟨q, msgs, hloop, h.1, h.2.1, h.2.2, hempty⟩

/-- C20 (`processMessages` terminates and consumes one line per handled message): for
every session and every queue the loop returns within as many iterations as the queue
has lines (any larger budget gives the same result).  One iteration on a live
connection either returns after `terminate` with the queue untouched, when the head line
fails to decode, or runs the handler of the head line's message and goes on with exactly
that head line removed.  Over the whole run the lines removed are the first `k` lines,
they decode to the `k` messages handled, in this order, and the exit state is the one
those handlers leave (terminated, when the next line fails to decode); so the queue on
return is a suffix of the original queue, and it is empty whenever the connection is
still active. -/
theorem C20_terminates_and_consumes (env : Env) (p : Peer) :
    (∃ q, p.processMessages env = some q ∧
      (∀ fuel, p.m_messages.length ≤ fuel → Peer.processMessagesLoop env fuel p = some q) ∧
      (∃ k, k ≤ p.m_messages.length ∧ q.m_messages = p.m_messages.drop k) ∧
      q.m_messages <:+ p.m_messages ∧
      (q.m_connection.isActive = true → q.m_messages = []) ∧
      ∃ msgs : List Message,
        (p.m_messages.take msgs.length).map env.parseFromJson = msgs.map some ∧
        msgs.length ≤ p.m_messages.length ∧
        q.m_messages = p.m_messages.drop msgs.length ∧
        (q = { handleInQueueOrder env msgs p with
                m_messages := p.m_messages.drop msgs.length } ∨
          (q = Peer.terminate { handleInQueueOrder env msgs p with
                m_messages := p.m_messages.drop msgs.length } ∧
            ∃ next rest, p.m_messages.drop msgs.length = next :: rest ∧
              env.parseFromJson next = none))) ∧
    (∀ (fuel : Nat) (next : String) (rest : List String),
      p.m_connection.isActive = true → p.m_messages = next :: rest →
      (env.parseFromJson next = none →
        Peer.processMessagesLoop env (fuel + 1) p = some p.terminate ∧
        p.terminate.m_messages = next :: rest) ∧
      (∀ msg, env.parseFromJson next = some msg →
        Peer.processMessagesLoop env (fuel + 1) p
          = Peer.processMessagesLoop env fuel { p.handle env msg with m_messages := rest })) := by
  constructor
  · obtain ⟨q, msgs, hloop, htake, hle, hcase, hempty⟩ := processMessagesLoop_consumes env p
    have hdrop : q.m_messages = p.m_messages.drop msgs.length := by
      rcases hcase with h | ⟨h, -⟩
      · rw [h]
      · rw [h]; rfl
    refine ⟨q, hloop _ (Nat.le_refl _), hloop, ⟨msgs.length, hle, hdrop⟩, ?_, hempty, msgs,
      htake, hle, hdrop, hcase⟩
    rw [hdrop]
    exact List.drop_suffix _ p.m_messages
  · intro fuel next rest hactive hq
    refine ⟨fun hparse => ⟨processMessagesLoop_parseFail env fuel p next rest hactive hq hparse,
      hq⟩, ?_⟩
    intro msg hparse
    rw [processMessagesLoop_handled env fuel p (p.handle env msg) next rest msg hactive hq
      hparse (switchMessage_eq_handle env p msg)]
    have htail : (p.handle env msg).m_messages.tail = rest := by
      rw [handle_messages, hq]; rfl
    rw [htail]

/-- A witness for C20: a queue of a GetPeers, a GetObject, a line that is no message and
a Peers, on an established responder; two lines are handled and removed, the run ends at
the third, and the last two lines stay queued. -/
theorem C20_terminates_and_consumes_witness :
    (demoPeer true false ["type=getpeers", "type=getobject;objectid=missing", "not json",
        "type=peers;peers=10.0.0.1,10.0.0.2"] emptyNode).processMessages demoEnv
      = some (Peer.terminate
          { handleInQueueOrder demoEnv
              [Message.getPeers, Message.getObject { objectId := "missing" }]
              (demoPeer true false ["type=getpeers", "type=getobject;objectid=missing",
                "not json", "type=peers;peers=10.0.0.1,10.0.0.2"] emptyNode) with
            m_messages := ["not json", "type=peers;peers=10.0.0.1,10.0.0.2"] }) := by
  have hstep := (C20_terminates_and_consumes demoEnv
    (demoPeer true false ["type=getpeers", "type=getobject;objectid=missing", "not json",
      "type=peers;peers=10.0.0.1,10.0.0.2"] emptyNode)).2 3 "type=getpeers"
    ["type=getobject;objectid=missing", "not json", "type=peers;peers=10.0.0.1,10.0.0.2"]
    rfl rfl
  rw [Peer.processMessages]
  exact (hstep.2 Message.getPeers (by decide)).trans (by decide)

/-! ## Session start -/

/-- C12, as stated, fails: a session started as initiator on a connection that is already
dead sends nothing, because `startWork` returns at its liveness check. -/
theorem C12_session_start_dead_connection :
    deadPeer.m_connection.isActive = false ∧
      sends (deadPeer.startWork demoEnv true).trace = [] ∧
      sends (deadPeer.startWork demoEnv true).trace
        ≠ [(Message.hello (HelloMessage.mk demoEnv.LATEST_VERSION demoEnv.NODE_NAME)).asJson
              demoEnv,
            Message.getPeers.asJson demoEnv] := by
  decide

/-- C12, amended (session start): a session started with initiator=true on a live
connection makes exactly two calls before the reader thread exists, the send of the
encoded `Hello(LATEST_VERSION, NODE_NAME)` and then the send of the encoded `GetPeers`;
a session started with initiator=false makes no call; and a session started on a
connection that is not active makes no call, whatever the flag. -/
theorem C12_session_start (env : Env) (p : Peer) :
    (p.m_connection.isActive = true →
      (p.startWork env true).trace = p.trace ++
        [Event.send
            ((Message.hello (HelloMessage.mk env.LATEST_VERSION env.NODE_NAME)).asJson env),
          Event.send (Message.getPeers.asJson env)]) ∧
      (p.startWork env false).trace = p.trace ∧
      (p.m_connection.isActive = false → ∀ b, (p.startWork env b).trace = p.trace) := by
  refine ⟨?_, ?_, ?_⟩
  · intro hactive
    simp [Peer.startWork, hactive, Peer.send, HelloMessage.default]
  · cases hactive : p.m_connection.isActive <;> simp [Peer.startWork, hactive]
  · intro hactive b
    simp [Peer.startWork, hactive]

/-- A witness for C12: a fresh session on a live connection, started as initiator. -/
theorem C12_session_start_witness :
    sends ((demoPeer false false [] emptyNode).startWork demoEnv true).trace
      = ["type=hello;version=0.1;agent=sylvestrupp", "type=getpeers"] := by
  rw [(C12_session_start demoEnv (demoPeer false false [] emptyNode)).1 rfl]
  decide

/-! ## Encoding and dispatch -/

/-- C14 (encoding keys): for each variant `asJson` serialises an object with exactly the
keys listed for it, each once; the value under `type` is the variant's enumeration
string and the other values are the fields of the message, unchanged. -/
theorem C14_encoding_keys (env : Env) :
    (∀ m : HelloMessage, (Message.hello m).asJson env = env.dump
      [("type", JsonValue.str "hello"), ("version", JsonValue.str m.version),
        ("agent", JsonValue.str m.agent)]) ∧
    (Message.getPeers.asJson env = env.dump [("type", JsonValue.str "getpeers")]) ∧
    (∀ m : PeersMessage, (Message.peers m).asJson env = env.dump
      [("type", JsonValue.str "peers"), ("peers", JsonValue.strs m.peerIps)]) ∧
    (∀ m : GetObjectMessage, (Message.getObject m).asJson env = env.dump
      [("type", JsonValue.str "getobject"), ("objectid", JsonValue.str m.objectId)]) ∧
    (∀ m : IHaveObjectMessage, (Message.iHaveObject m).asJson env = env.dump
      [("type", JsonValue.str "ihaveobject"), ("objectid", JsonValue.str m.objectId)]) ∧
    (∀ m : ObjectMessage, (Message.object m).asJson env = env.dump
      [("type", JsonValue.str "object"), ("object", JsonValue.str m.object)]) ∧
    (∀ msg : Message, (msg.toJson.map Prod.fst).Nodup ∧
      msg.toJson.lookup "type" = some (JsonValue.str msg.type)) := by
  refine ⟨fun _ => rfl, rfl, fun _ => rfl, fun _ => rfl, fun _ => rfl, fun _ => rfl, ?_⟩
  intro msg
  cases msg <;> refine ⟨?_, rfl⟩ <;>
    simp [Message.toJson, STR_TYPE, STR_VERSION, STR_AGENT, STR_PEERS, STR_OBJECT_ID,
      STR_OBJECT]

/-- C19 (dispatch is exhaustive and matches the variant): `GET_TYPE` sends the six wire
type strings to the six tags, one to one; each variant's constructor stores the tag of
its own type string; the `switch` hands a message with that tag to the handler of the
same variant; so for a decoded message the `default:` branch is never taken, no handler
gets a null pointer, and the loop goes on with the handled state, the head line erased. -/
theorem C19_dispatch_exhaustive (env : Env) (p : Peer) :
    (GET_TYPE_at "hello" = some MessageType.HELLO ∧
      GET_TYPE_at "getpeers" = some MessageType.GET_PEERS ∧
      GET_TYPE_at "peers" = some MessageType.PEERS ∧
      GET_TYPE_at "getobject" = some MessageType.GET_OBJECT ∧
      GET_TYPE_at "ihaveobject" = some MessageType.I_HAVE_OBJECT ∧
      GET_TYPE_at "object" = some MessageType.OBJECT) ∧
    ((GET_TYPE.map Prod.fst).Nodup ∧ (GET_TYPE.map Prod.snd).Nodup ∧
      GET_TYPE.length = 6 ∧ ∀ tag : MessageType, tag ∈ GET_TYPE.map Prod.snd) ∧
    ((∀ m, (Message.hello m).messageType = some MessageType.HELLO) ∧
      Message.getPeers.messageType = some MessageType.GET_PEERS ∧
      (∀ m, (Message.peers m).messageType = some MessageType.PEERS) ∧
      (∀ m, (Message.getObject m).messageType = some MessageType.GET_OBJECT) ∧
      (∀ m, (Message.iHaveObject m).messageType = some MessageType.I_HAVE_OBJECT) ∧
      (∀ m, (Message.object m).messageType = some MessageType.OBJECT)) ∧
    ((∀ m, p.switchMessage env (Message.hello m)
        = SwitchResult.handled (p.processHelloMessage env m)) ∧
      p.switchMessage env Message.getPeers
        = SwitchResult.handled (p.processGetPeersMessage env) ∧
      (∀ m, p.switchMessage env (Message.peers m)
        = SwitchResult.handled (p.processPeersMessage m)) ∧
      (∀ m, p.switchMessage env (Message.getObject m)
        = SwitchResult.handled (p.processGetObjectMessage env m)) ∧
      (∀ m, p.switchMessage env (Message.iHaveObject m)
        = SwitchResult.handled (p.processIHaveObjectMessage env m)) ∧
      (∀ m, p.switchMessage env (Message.object m)
        = SwitchResult.handled (p.processObjectMessage env m))) ∧
    (∀ msg : Message, p.switchMessage env msg ≠ SwitchResult.noCase ∧
      p.switchMessage env msg ≠ SwitchResult.nullMessage) ∧
    (∀ (fuel : Nat) (next : String) (rest : List String) (msg : Message),
      p.m_connection.isActive = true → p.m_messages = next :: rest →
      env.parseFromJson next = some msg →
      Peer.processMessagesLoop env (fuel + 1) p
        = Peer.processMessagesLoop env fuel { p.handle env msg with m_messages := rest }) := by
  refine ⟨by decide, ⟨by decide, by decide, rfl, ?_⟩,
    ⟨messageType_hello, messageType_getPeers, messageType_peers, messageType_getObject,
      messageType_iHaveObject, messageType_object⟩,
    ⟨fun m => switchMessage_hello env m p, switchMessage_getPeers env p,
      fun m => switchMessage_peers env m p, fun m => switchMessage_getObject env m p,
      fun m => switchMessage_iHaveObject env m p, fun m => switchMessage_object env m p⟩,
    ?_, ?_⟩
  · intro tag
    cases tag <;> decide
  · intro msg
    rw [switchMessage_eq_handle]
    exact ⟨by simp, by simp⟩
  · intro fuel next rest msg hactive hq hparse
    rw [processMessagesLoop_handled env fuel p (p.handle env msg) next rest msg hactive hq
      hparse (switchMessage_eq_handle env p msg)]
    have htail : (p.handle env msg).m_messages.tail = rest := by
      rw [handle_messages, hq]; rfl
    rw [htail]

/-! ## Round trip -/

/-- The decoder reads an object only through its keys. -/
theorem decodeJson_congr (j k : Json) (h : ∀ key, k.lookup key = j.lookup key) :
    decodeJson k = decodeJson j := by
  simp only [decodeJson, h]

theorem decodeJson_toJson (m : Message) : decodeJson m.toJson = some m := by
  cases m <;> rfl

/-- C15 (round trip): for every message `m` of every variant, decoding the object that
`asJson` assembles yields `m`; and whenever the library parser reads the text
`m.asJson()` back as an object with the same value under every key, decoding that text
succeeds and yields `m`, the same variant with the same field values. -/
theorem C15_round_trip (env : Env) (jsonParse : String → Option Json) (m : Message)
    (j : Json) (hparse : jsonParse (env.dump m.toJson) = some j)
    (hsame : ∀ key, j.lookup key = m.toJson.lookup key) :
    decodeJson m.toJson = some m ∧ decode jsonParse (m.asJson env) = some m := by
  refine ⟨decodeJson_toJson m, ?_⟩
  simp only [decode, Message.asJson, hparse, Option.bind]
  rw [decodeJson_congr m.toJson j hsame]
  exact decodeJson_toJson m

/-- A witness for C15: a Peers message through the concrete renderer and parser. -/
theorem C15_round_trip_witness :
    decodeJson (Message.peers { peerIps := ["10.0.0.1", "10.0.0.2"] }).toJson
        = some (Message.peers { peerIps := ["10.0.0.1", "10.0.0.2"] }) ∧
      decode demoJsonParse "type=peers;peers=10.0.0.1,10.0.0.2"
        = some (Message.peers { peerIps := ["10.0.0.1", "10.0.0.2"] }) :=
  C15_round_trip demoEnv demoJsonParse (Message.peers { peerIps := ["10.0.0.1", "10.0.0.2"] })
    (Message.peers { peerIps := ["10.0.0.1", "10.0.0.2"] }).toJson (by decide) (fun _ => rfl)

/-! ## The content-addressed store -/

theorem mem_insertedBy (es : List Event) (id payload : String)
    (h : (id, payload) ∈ insertedBy es) : Event.addObject id payload true ∈ es := by
  simp only [insertedBy, List.mem_filterMap] at h
  obtain ⟨e, he, hsome⟩ := h
  cases e with
  | addObject i pl b =>
    cases b with
    | true =>
      simp only [Option.some.injEq, Prod.mk.injEq] at hsome
      obtain ⟨rfl, rfl⟩ := hsome
      exact he
    | false => simp at hsome
  | _ => simp at hsome

/-- What one handler does to the store: it inserts exactly what its successful
`addObject` calls name, every such call is keyed by the hash of its payload, every
broadcast announces the hash of a payload inserted by the same handler, and an
`addObject` call is made only for an Object message and with that message's payload. -/
theorem handle_store (env : Env) (p : Peer) (msg : Message) :
    ∃ es, (p.handle env msg).trace = p.trace ++ es ∧
      (p.handle env msg).m_node.objects = p.m_node.objects ++ insertedBy es ∧
      (∀ e ∈ es, e.hashKeyed env = true) ∧
      (∀ t ∈ broadcasts es, ∃ payload,
        t = (Message.iHaveObject { objectId := env.SHA256AndEncode payload }).asJson env ∧
        Event.addObject (env.SHA256AndEncode payload) payload true ∈ es) ∧
      (∀ id payload inserted, Event.addObject id payload inserted ∈ es →
        msg = Message.object { object := payload }) := by
  cases hhs : p.m_handshake with
  | false =>
    refine ⟨(p.handle env msg).trace.drop p.trace.length, ?_, ?_, ?_, ?_, ?_⟩ <;>
      cases msg <;>
      simp [Peer.handle, Peer.processHelloMessage, Peer.processGetPeersMessage,
        Peer.processPeersMessage, Peer.processGetObjectMessage,
        Peer.processIHaveObjectMessage, Peer.processObjectMessage, Peer.terminate, Peer.send,
        hhs, insertedBy, broadcasts, Event.hashKeyed] <;>
      (repeat' split) <;> simp [insertedBy, broadcasts, Event.hashKeyed]
  | true =>
    cases msg with
    | hello m =>
      exact ⟨[Event.terminate], by simp [Peer.handle, Peer.processHelloMessage, hhs,
        Peer.terminate, insertedBy, broadcasts, Event.hashKeyed]⟩
    | getPeers =>
      exact ⟨[Event.getPeerIpsCopy,
        Event.send ((Message.peers { peerIps := p.m_node.getPeerIpsCopy }).asJson env)], by
        simp [Peer.handle, Peer.processGetPeersMessage, hhs, Peer.send, insertedBy,
          broadcasts, Event.hashKeyed]⟩
    | peers m =>
      exact ⟨[Event.addNewPeers m.peerIps], by
        simp [Peer.handle, Peer.processPeersMessage, hhs, Node.addNewPeers, insertedBy,
          broadcasts, Event.hashKeyed]⟩
    | getObject m =>
      cases hget : p.m_node.getObject m.objectId with
      | none =>
        exact ⟨[Event.getObject m.objectId], by
          simp [Peer.handle, Peer.processGetObjectMessage, hhs, hget, insertedBy,
            broadcasts, Event.hashKeyed]⟩
      | some payload =>
        exact ⟨[Event.getObject m.objectId,
          Event.send ((Message.object { object := payload }).asJson env)], by
          simp [Peer.handle, Peer.processGetObjectMessage, hhs, hget, Peer.send, insertedBy,
            broadcasts, Event.hashKeyed]⟩
    | iHaveObject m =>
      cases hex : p.m_node.objectExists m.objectId with
      | true =>
        exact ⟨[Event.objectExists m.objectId], by
          simp [Peer.handle, Peer.processIHaveObjectMessage, hhs, hex, insertedBy,
            broadcasts, Event.hashKeyed]⟩
      | false =>
        exact ⟨[Event.objectExists m.objectId,
          Event.send ((Message.getObject { objectId := m.objectId }).asJson env)], by
          simp [Peer.handle, Peer.processIHaveObjectMessage, hhs, hex, Peer.send, insertedBy,
            broadcasts, Event.hashKeyed]⟩
    | object m =>
      cases hex : p.m_node.objectExists (env.SHA256AndEncode m.object) with
      | true =>
        exact ⟨[Event.addObject (env.SHA256AndEncode m.object) m.object false], by
          simp [Peer.handle, Peer.processObjectMessage, hhs, Node.addObject, hex, insertedBy,
            broadcasts, Event.hashKeyed]⟩
      | false =>
        exact ⟨[Event.addObject (env.SHA256AndEncode m.object) m.object true,
          Event.broadcastMessage ((Message.iHaveObject
            { objectId := env.SHA256AndEncode m.object }).asJson env)], by
          simp [Peer.handle, Peer.processObjectMessage, hhs, Node.addObject, hex,
            Node.broadcastMessage], by
          simp [Peer.handle, Peer.processObjectMessage, hhs, Node.addObject, hex,
            Node.broadcastMessage, insertedBy], by
          simp [Event.hashKeyed], by
          simp only [broadcasts, List.filterMap_cons, List.filterMap_nil, List.mem_singleton]
          intro t ht
          exact ⟨m.object, ht, List.mem_cons_self _ _⟩, by
          intro id payload inserted hmem
          simp only [List.mem_cons, Event.addObject.injEq, List.mem_singleton,
            reduceCtorEq, List.not_mem_nil, or_false] at hmem
          rw [hmem.2.1]⟩

/-- Over a whole run of the loop the store discipline of the single handlers adds up,
and every `addObject` call of the run carries the payload of a queued line that decodes
to an Object message. -/
theorem processMessagesLoop_store (env : Env) (p : Peer) :
    ∃ q es, (∀ fuel, p.m_messages.length ≤ fuel →
        Peer.processMessagesLoop env fuel p = some q) ∧
      q.trace = p.trace ++ es ∧
      q.m_node.objects = p.m_node.objects ++ insertedBy es ∧
      (∀ e ∈ es, e.hashKeyed env = true) ∧
      (∀ t ∈ broadcasts es, ∃ payload,
        t = (Message.iHaveObject { objectId := env.SHA256AndEncode payload }).asJson env ∧
        Event.addObject (env.SHA256AndEncode payload) payload true ∈ es) ∧
      (∀ id payload inserted, Event.addObject id payload inserted ∈ es →
        ∃ line ∈ p.m_messages,
          env.parseFromJson line = some (Message.object { object := payload })) := by
  obtain ⟨q, ⟨es, h⟩, hloop⟩ := processMessagesLoop_rel env
    (fun a b => ∃ es, b.trace = a.trace ++ es ∧
      b.m_node.objects = a.m_node.objects ++ insertedBy es ∧
      (∀ e ∈ es, e.hashKeyed env = true) ∧
      (∀ t ∈ broadcasts es, ∃ payload,
        t = (Message.iHaveObject { objectId := env.SHA256AndEncode payload }).asJson env ∧
        Event.addObject (env.SHA256AndEncode payload) payload true ∈ es) ∧
      (∀ id payload inserted, Event.addObject id payload inserted ∈ es →
        ∃ line ∈ a.m_messages,
          env.parseFromJson line = some (Message.object { object := payload })))
    (fun a _ => ⟨[], by simp [insertedBy, broadcasts]⟩)
    (fun a _ _ _ _ _ => ⟨[Event.terminate], by
      simp [Peer.terminate, insertedBy, broadcasts, Event.hashKeyed]⟩)
    (fun a b next rest msg _ hq hparse hR => by
      obtain ⟨es2, ht2, ho2, hk2, hb2, hr2⟩ := hR
      obtain ⟨es1, ht1, ho1, hk1, hb1, hr1⟩ := handle_store env a msg
      refine ⟨es1 ++ es2, ?_, ?_, ?_, ?_, ?_⟩
      · rw [ht2]
        simp only [ht1, List.append_assoc]
      · rw [ho2]
        simp only [ho1, insertedBy, List.filterMap_append, List.append_assoc]
      · intro e he
        rcases List.mem_append.mp he with he | he
        · exact hk1 e he
        · exact hk2 e he
      · intro t ht
        simp only [broadcasts, List.filterMap_append, List.mem_append] at ht
        rcases ht with ht | ht
        · obtain ⟨payload, h1, h2⟩ := hb1 t ht
          exact ⟨payload, h1, List.mem_append_left _ h2⟩
        · obtain ⟨payload, h1, h2⟩ := hb2 t ht
          exact ⟨payload, h1, List.mem_append_right _ h2⟩
      · intro id payload inserted hmem
        rcases List.mem_append.mp hmem with hmem | hmem
        · refine ⟨next, by simp [hq], ?_⟩
          rw [hparse, hr1 id payload inserted hmem]
        · obtain ⟨line, hline, hdec⟩ := hr2 id payload inserted hmem
          exact ⟨line, by rw [hq]; exact List.mem_cons_of_mem _ hline, hdec⟩)
    p.m_messages.length p rfl
  exact ⟨q, es, hloop, h⟩

/-- C16 (content-addressed store invariant): when every entry of the store is keyed by
the content hash of its payload, `processMessages` returns, for any session and any
queue, with a store of which the same holds.  The store has grown by exactly the entries
of the successful `addObject` calls of the run; every `addObject` call of the run has the
hash of its payload as its id and carries the payload of a received Object, a queued
line that decodes to an Object message; and every broadcast of the run is the encoded
`IHaveObject` whose id is the hash of a payload inserted in that run.  Handler by
handler: the store grows by the successful `addObject` calls of that handler, a handler
calls `addObject` only when its message is an Object, with that Object's payload and
its hash; and handling an Object makes either the rejected insert alone, or the
successful insert followed by the broadcast of the `IHaveObject` for the same hash, or,
before the handshake, `terminate` alone. -/
theorem C16_content_addressed_store (env : Env) (p : Peer)
    (hinv : p.m_node.contentAddressed env = true) :
    (∃ q es, p.processMessages env = some q ∧
      q.trace = p.trace ++ es ∧
      q.m_node.contentAddressed env = true ∧
      q.m_node.objects = p.m_node.objects ++ insertedBy es ∧
      (∀ id payload inserted, Event.addObject id payload inserted ∈ es →
        id = env.SHA256AndEncode payload) ∧
      (∀ t ∈ broadcasts es, ∃ payload,
        t = (Message.iHaveObject { objectId := env.SHA256AndEncode payload }).asJson env ∧
        Event.addObject (env.SHA256AndEncode payload) payload true ∈ es) ∧
      (∀ id payload inserted, Event.addObject id payload inserted ∈ es →
        ∃ line ∈ p.m_messages,
          env.parseFromJson line = some (Message.object { object := payload }))) ∧
    (∀ msg : Message,
      (p.handle env msg).m_node.objects
        = p.m_node.objects ++ insertedBy (eventsOf env msg p) ∧
      ∀ id payload inserted, Event.addObject id payload inserted ∈ eventsOf env msg p →
        msg = Message.object { object := payload } ∧ id = env.SHA256AndEncode payload) ∧
    (∀ message : ObjectMessage,
      eventsOf env (Message.object message) p
          = [Event.addObject (env.SHA256AndEncode message.object) message.object false] ∨
        eventsOf env (Message.object message) p
          = [Event.addObject (env.SHA256AndEncode message.object) message.object true,
              Event.broadcastMessage ((Message.iHaveObject
                { objectId := env.SHA256AndEncode message.object }).asJson env)] ∨
        (p.m_handshake = false ∧
          eventsOf env (Message.object message) p = [Event.terminate])) := by
  refine ⟨?_, ?_, ?_⟩
  · obtain ⟨q, es, hloop, htrace, hobjects, hkeyed, hbroadcast, hreceived⟩ :=
      processMessagesLoop_store env p
    have hadd : ∀ id payload inserted, Event.addObject id payload inserted ∈ es →
        id = env.SHA256AndEncode payload := by
      intro id payload inserted hmem
      simpa [Event.hashKeyed] using hkeyed _ hmem
    refine ⟨q, es, hloop _ (Nat.le_refl _), htrace, ?_, hobjects, hadd, hbroadcast,
      hreceived⟩
    simp only [Node.contentAddressed, List.all_eq_true, beq_iff_eq] at hinv ⊢
    intro kv hkv
    rw [hobjects] at hkv
    rcases List.mem_append.mp hkv with hold | hnew
    · exact hinv kv hold
    · obtain ⟨id, payload⟩ := kv
      exact hadd id payload true (mem_insertedBy es id payload hnew)
  · intro msg
    obtain ⟨es, htrace, hobjects, hkeyed, -, horigin⟩ := handle_store env p msg
    have hes : eventsOf env msg p = es := by simp [eventsOf, htrace]
    rw [hes]
    refine ⟨hobjects, fun id payload inserted hmem => ⟨horigin id payload inserted hmem, ?_⟩⟩
    simpa [Event.hashKeyed] using hkeyed _ hmem
  · intro message
    cases hhs : p.m_handshake with
    | false =>
      exact Or.inr (Or.inr ⟨rfl, by
        simp [eventsOf, Peer.handle, Peer.processObjectMessage, hhs, Peer.terminate]⟩)
    | true =>
      cases hex : p.m_node.objectExists (env.SHA256AndEncode message.object) with
      | true =>
        exact Or.inl (by
          simp [eventsOf, Peer.handle, Peer.processObjectMessage, hhs, Node.addObject, hex])
      | false =>
        exact Or.inr (Or.inl (by
          simp [eventsOf, Peer.handle, Peer.processObjectMessage, hhs, Node.addObject, hex]))

/-- A witness for C16: the payload `P` delivered twice to an established session over
an empty store. -/
theorem C16_content_addressed_store_witness :
    ∃ q es, (demoPeer true false ["type=object;object=P", "type=object;object=P"]
        emptyNode).processMessages demoEnv = some q ∧
      q.trace = [] ++ es ∧
      q.m_node.contentAddressed demoEnv = true ∧
      q.m_node.objects = [] ++ insertedBy es ∧
      (∀ id payload inserted, Event.addObject id payload inserted ∈ es →
        ∃ line ∈ ["type=object;object=P", "type=object;object=P"],
          demoEnv.parseFromJson line = some (Message.object { object := payload })) := by
  obtain ⟨q, es, hq, htrace, hinv, hobjects, -, -, hreceived⟩ :=
    (C16_content_addressed_store demoEnv
      (demoPeer true false ["type=object;object=P", "type=object;object=P"] emptyNode) rfl).1
  exact ⟨q, es, hq, htrace, hinv, hobjects, hreceived⟩

/-! ## Whole runs before and during the handshake -/

/-- Before the handshake a message that is not a Hello of the local version only
terminates the connection. -/
theorem switchMessage_not_local_hello (env : Env) (p : Peer) (msg : Message)
    (hhs : p.m_handshake = false)
    (hnot : ¬ ∃ h, msg = Message.hello h ∧ h.version = env.LATEST_VERSION) :
    p.switchMessage env msg = SwitchResult.handled p.terminate := by
  cases msg with
  | hello h =>
    have hv : h.version ≠ env.LATEST_VERSION := fun hv => hnot ⟨h, rfl, hv⟩
    simp [switchMessage_hello, Peer.processHelloMessage, hhs, hv]
  | getPeers => exact switchMessage_before_handshake env p _ hhs (by intro m h; cases h)
  | peers m => exact switchMessage_before_handshake env p _ hhs (by intro m h; cases h)
  | getObject m => exact switchMessage_before_handshake env p _ hhs (by intro m h; cases h)
  | iHaveObject m => exact switchMessage_before_handshake env p _ hhs (by intro m h; cases h)
  | object m => exact switchMessage_before_handshake env p _ hhs (by intro m h; cases h)

/-- C17 (pre-handshake isolation over whole runs): for a session whose handshake flag is
false, `processMessages` returns for every queue, and one of two things holds.  Either
no Hello of the local version was handled: then the flag is still false, the node is
as it was, and the run made no call at all or the single call `terminate`, so there was
no node call and no send.  Or the live session found a Hello of the local version at the
head of its queue: handling it made no node call and sent at most the Hello reply, and
every other call of the run was made by the rest of the loop, after it. -/
theorem C17_pre_handshake_isolation (env : Env) (p : Peer) (hhs : p.m_handshake = false) :
    ∃ q, p.processMessages env = some q ∧
      ((q.m_handshake = false ∧ q.m_node = p.m_node ∧
          (q.trace = p.trace ∨ q.trace = p.trace ++ [Event.terminate])) ∨
        ∃ next rest h es, p.m_connection.isActive = true ∧ p.m_messages = next :: rest ∧
          env.parseFromJson next = some (Message.hello h) ∧
          h.version = env.LATEST_VERSION ∧
          (p.processHelloMessage env h).m_node = p.m_node ∧
          (p.processHelloMessage env h).trace = p.trace ++
            (if p.m_starter = true then []
              else [Event.send ((Message.hello (HelloMessage.default env)).asJson env)]) ∧
          Peer.processMessagesLoop env rest.length
            { p.processHelloMessage env h with m_messages := rest } = some q ∧
          q.trace = (p.processHelloMessage env h).trace ++ es) := by
  cases hactive : p.m_connection.isActive with
  | false =>
    exact ⟨p, processMessagesLoop_inactive env _ p hactive, Or.inl ⟨hhs, rfl, Or.inl rfl⟩⟩
  | true =>
    cases hq : p.m_messages with
    | nil => exact ⟨p, processMessagesLoop_nil env _ p hq, Or.inl ⟨hhs, rfl, Or.inl rfl⟩⟩
    | cons next rest =>
      have hlen : p.m_messages.length = rest.length + 1 := by simp [hq]
      cases hparse : env.parseFromJson next with
      | none =>
        refine ⟨p.terminate, ?_, Or.inl ⟨hhs, rfl, Or.inr rfl⟩⟩
        rw [Peer.processMessages, hlen]
        exact processMessagesLoop_parseFail env rest.length p next rest hactive hq hparse
      | some msg =>
        by_cases hgood : ∃ h, msg = Message.hello h ∧ h.version = env.LATEST_VERSION
        · obtain ⟨h, rfl, hv⟩ := hgood
          obtain ⟨q, es, hloop, htrace, -⟩ := processMessagesLoop_store env
            { p.processHelloMessage env h with m_messages := rest }
          have htail : (p.processHelloMessage env h).m_messages.tail = rest := by
            have := handle_messages env p (Message.hello h)
            simp only [Peer.handle] at this
            rw [this, hq]; rfl
          refine ⟨q, ?_, Or.inr ⟨next, rest, h, es, rfl, rfl, hparse, hv, ?_, ?_,
            hloop _ (Nat.le_refl _), htrace⟩⟩
          · rw [Peer.processMessages, hlen, processMessagesLoop_handled env rest.length p
              (p.processHelloMessage env h) next rest (Message.hello h) hactive hq hparse
              (switchMessage_hello env h p), htail]
            exact hloop _ (Nat.le_refl _)
          · by_cases hst : p.m_starter = true <;>
              simp [Peer.processHelloMessage, hhs, hv, hst, Peer.send]
          · by_cases hst : p.m_starter = true <;>
              simp [Peer.processHelloMessage, hhs, hv, hst, Peer.send]
        · have hsw := switchMessage_not_local_hello env p msg hhs hgood
          refine ⟨{ p.terminate with m_messages := rest }, ?_,
            Or.inl ⟨hhs, rfl, Or.inr rfl⟩⟩
          rw [Peer.processMessages, hlen, processMessagesLoop_handled env rest.length p
            p.terminate next rest msg hactive hq hparse hsw]
          have htail : p.terminate.m_messages.tail = rest := by simp [Peer.terminate, hq]
          rw [htail]
          exact processMessagesLoop_inactive env _ _ rfl

/-- A witness for C17: a fresh responder whose queue holds a Hello of another version
and then an Object. -/
theorem C17_pre_handshake_isolation_witness :
    ∃ q, (demoPeer false false ["type=hello;version=9.9;agent=remote",
        "type=object;object=P"] emptyNode).processMessages demoEnv = some q ∧
      q.m_node = emptyNode ∧ nodeCalls q.trace = [] ∧ sends q.trace = [] := by
  obtain ⟨q, hq, h⟩ := C17_pre_handshake_isolation demoEnv
    (demoPeer false false ["type=hello;version=9.9;agent=remote", "type=object;object=P"]
      emptyNode) rfl
  refine ⟨q, hq, ?_⟩
  rcases h with ⟨-, hnode, htrace | htrace⟩ | ⟨next, rest, h, es, -, hqueue, hparse, hv, -⟩
  · exact ⟨hnode, by rw [htrace]; rfl, by rw [htrace]; rfl⟩
  · exact ⟨hnode, by rw [htrace]; rfl, by rw [htrace]; rfl⟩
  · exfalso
    simp only [demoPeer, List.cons.injEq] at hqueue
    obtain ⟨rfl, -⟩ := hqueue
    have hdec : demoEnv.parseFromJson "type=hello;version=9.9;agent=remote"
        = some (Message.hello { version := "9.9", agent := "remote" }) := by decide
    rw [hdec] at hparse
    simp only [Option.some.injEq, Message.hello.injEq] at hparse
    subst hparse
    revert hv
    decide

/-- C18 (self-compatible handshake without Hello ping-pong): the Hello this code sends
carries the local version.  Let an initiator and a responder of this code, both fresh
and on live connections, be started, and let each receive, in order, what the other
sent, each text decoding to the message it encodes.  The responder handles the
initiator's Hello by becoming established and replying with one Hello (and answers the
GetPeers); the initiator handles that reply by becoming established and sends nothing
more; neither connection is terminated; of all the texts sent, exactly two are Hello
messages. -/
theorem C18_self_compatible_handshake (env : Env) (a b : Peer)
    (ha : a.m_connection.isActive = true) (hb : b.m_connection.isActive = true)
    (hahs : a.m_handshake = false) (hbhs : b.m_handshake = false)
    (haq : a.m_messages = []) (hbq : b.m_messages = [])
    (hhello : env.parseFromJson ((Message.hello (HelloMessage.default env)).asJson env)
      = some (Message.hello (HelloMessage.default env)))
    (hgetpeers : env.parseFromJson (Message.getPeers.asJson env) = some Message.getPeers)
    (hpeers : env.parseFromJson
        ((Message.peers { peerIps := b.m_node.getPeerIpsCopy }).asJson env)
      = some (Message.peers { peerIps := b.m_node.getPeerIpsCopy })) :
    (HelloMessage.default env).version = env.LATEST_VERSION ∧
    (a.startWork env true).trace = a.trace ++
      [Event.send ((Message.hello (HelloMessage.default env)).asJson env),
        Event.send (Message.getPeers.asJson env)] ∧
    (b.startWork env false).trace = b.trace ∧
    ∃ b2 a2,
      ((b.startWork env false).enqueue
          [(Message.hello (HelloMessage.default env)).asJson env,
            Message.getPeers.asJson env]).processMessages env = some b2 ∧
      b2.m_handshake = true ∧ b2.m_connection.isActive = true ∧
      b2.trace = b.trace ++
        [Event.send ((Message.hello (HelloMessage.default env)).asJson env),
          Event.getPeerIpsCopy,
          Event.send ((Message.peers { peerIps := b.m_node.getPeerIpsCopy }).asJson env)] ∧
      ((a.startWork env true).enqueue
          [(Message.hello (HelloMessage.default env)).asJson env,
            (Message.peers { peerIps := b.m_node.getPeerIpsCopy }).asJson
              env]).processMessages env = some a2 ∧
      a2.m_handshake = true ∧ a2.m_connection.isActive = true ∧
      a2.trace = (a.startWork env true).trace ++
        [Event.addNewPeers b.m_node.getPeerIpsCopy] ∧
      ((sends (a2.trace.drop a.trace.length) ++ sends (b2.trace.drop b.trace.length)).filter
        (isHelloText env)).length = 2 := by
  refine ⟨rfl, ?_, ?_, ?_⟩
  · simp [Peer.startWork, ha, Peer.send]
  · simp [Peer.startWork, hb]
  · have hv : (HelloMessage.default env).version = env.LATEST_VERSION := rfl
    have hB : ∃ b2, ((b.startWork env false).enqueue
          [(Message.hello (HelloMessage.default env)).asJson env,
            Message.getPeers.asJson env]).processMessages env = some b2 ∧
        b2.m_handshake = true ∧ b2.m_connection.isActive = true ∧
        b2.trace = b.trace ++
          [Event.send ((Message.hello (HelloMessage.default env)).asJson env),
            Event.getPeerIpsCopy,
            Event.send ((Message.peers { peerIps := b.m_node.getPeerIpsCopy }).asJson env)] := by
      simp [Peer.processMessages, Peer.processMessagesLoop, Peer.enqueue, Peer.startWork, hb,
        hbq, hbhs, hhello, hgetpeers, switchMessage_hello, switchMessage_getPeers,
        Peer.processHelloMessage, Peer.processGetPeersMessage, Peer.send, hv]
    have hA : ∃ a2, ((a.startWork env true).enqueue
          [(Message.hello (HelloMessage.default env)).asJson env,
            (Message.peers { peerIps := b.m_node.getPeerIpsCopy }).asJson
              env]).processMessages env = some a2 ∧
        a2.m_handshake = true ∧ a2.m_connection.isActive = true ∧
        a2.trace = (a.startWork env true).trace ++
          [Event.addNewPeers b.m_node.getPeerIpsCopy] := by
      simp [Peer.processMessages, Peer.processMessagesLoop, Peer.enqueue, Peer.startWork, ha,
        haq, hahs, hhello, hpeers, switchMessage_hello, switchMessage_peers,
        Peer.processHelloMessage, Peer.processPeersMessage, Peer.send, hv]
    obtain ⟨b2, hb2, hb2hs, hb2act, hb2trace⟩ := hB
    obtain ⟨a2, ha2, ha2hs, ha2act, ha2trace⟩ := hA
    refine ⟨b2, a2, hb2, hb2hs, hb2act, hb2trace, ha2, ha2hs, ha2act, ha2trace, ?_⟩
    rw [ha2trace, hb2trace]
    simp [Peer.startWork, ha, Peer.send, sends, isHelloText, hhello, hgetpeers, hpeers]

/-- A witness for C18: a fresh initiator dials a fresh responder that knows two peers. -/
theorem C18_self_compatible_handshake_witness :
    ∃ b2 a2,
      (((demoPeer false false [] { peers := ["10.0.0.1", "10.0.0.2"], objects := [] }).startWork
          demoEnv false).enqueue
          ["type=hello;version=0.1;agent=sylvestrupp", "type=getpeers"]).processMessages demoEnv
        = some b2 ∧
      b2.m_handshake = true ∧ b2.m_connection.isActive = true ∧
      b2.trace = [Event.send "type=hello;version=0.1;agent=sylvestrupp", Event.getPeerIpsCopy,
        Event.send "type=peers;peers=10.0.0.1,10.0.0.2"] ∧
      (((demoPeer false false [] emptyNode).startWork demoEnv true).enqueue
          ["type=hello;version=0.1;agent=sylvestrupp",
            "type=peers;peers=10.0.0.1,10.0.0.2"]).processMessages demoEnv = some a2 ∧
      a2.m_handshake = true ∧ a2.m_connection.isActive = true ∧
      a2.trace = [Event.send "type=hello;version=0.1;agent=sylvestrupp",
        Event.send "type=getpeers", Event.addNewPeers ["10.0.0.1", "10.0.0.2"]] := by
  obtain ⟨-, hstart, -, b2, a2, hb2, hb2hs, hb2act, hb2trace, ha2, ha2hs, ha2act, ha2trace, -⟩ :=
    C18_self_compatible_handshake demoEnv (demoPeer false false [] emptyNode)
      (demoPeer false false [] { peers := ["10.0.0.1", "10.0.0.2"], objects := [] })
      rfl rfl rfl rfl rfl rfl (by decide) (by decide) (by decide)
  refine ⟨b2, a2, hb2, hb2hs, hb2act, ?_, ha2, ha2hs, ha2act, ?_⟩
  · rw [hb2trace]; rfl
  · rw [ha2trace, hstart]; rfl

end Sylvestrupp
